import Mathlib

/-!
# Verification of the `lift_coords` coordinate-liftover pipeline

Shallow embedding of `src/lift_coords/lift.py` (module `lift`), the
build-to-build chain-resolution and multi-hop liftover orchestration
pipeline.  Tables (pandas DataFrames) are modelled as lists of indexed
rows, each row an ordered association list from column names to cell
values; the external `liftOver` binary is an oracle parameter mapping an
input interval list (and chain-file name) to an exit code plus the list
of successfully mapped intervals.  File-system and subprocess side
effects are recorded in an explicit effect trace.  Exceptions raised by
the Python code are modelled with `Except` over an error type with one
constructor per distinct exception site.
-/

/-- A cell value of a table: integer, string, or missing (`NaN`/`None`). -/
inductive Value where
  | int (n : Int)
  | str (s : String)
  | null
deriving DecidableEq, Repr

/-- A row is an ordered association list of (column name, value) cells,
mirroring a pandas row: column lookup finds the first cell with the
requested label. -/
abbrev Row := List (String × Value)

/-- A table: a list of column labels plus rows, each tagged with its
(unique, per the code's stated precondition) integer index. -/
structure DataFrame where
  cols : List String
  rows : List (Nat × Row)
deriving DecidableEq, Repr

/-- Look up the first cell of a row carrying the given column label. -/
def getCell (r : Row) (c : String) : Option Value :=
  (r.find? (fun p => p.1 == c)).map Prod.snd

/-- Lowercasing as used by Python's `str.lower` on the (ASCII) column
names appearing here, written character-wise so list lemmas apply. -/
def lowerStr (s : String) : String :=
  ⟨s.data.map Char.toLower⟩

/-- `needle in hay` on Python strings: substring containment. -/
def strContains (hay needle : String) : Bool :=
  decide (needle.data <:+: hay.data)

/-- `_match_column_str` (lift.py lines 200-207): first column whose
lowercased name contains `val`, else `none`. -/
def _match_column_str (val : String) (cols : List String) : Option String :=
  cols.find? (fun c => strContains (lowerStr c) val)

/-- `VALID_BUILDS` (lift.py line 16). -/
def VALID_BUILDS : List String := ["grch37", "grch38", "hg19", "hg38"]

/-- Chain file basenames (lift.py lines 17-25). -/
def _CHAIN_HG19_37 : String := "hg19_to_GRCh37.chain"

def _CHAIN_HG19_HG38 : String := "hg19_to_hg38.chain.gz"

def _CHAIN_HG38_HG19 : String := "hg38_to_hg19.chain"

def _CHAIN_HG38_38 : String := "hg38_to_GRCh38.chain"

def _CHAIN_37_HG38 : String := "GRCh37_to_hg38.chain"

def _CHAIN_37_HG19 : String := "GRCh37_to_hg19.chain"

def _CHAIN_37_38 : String := "GRCh37_to_GRCh38.chain"

def _CHAIN_38_37 : String := "GRCh38_to_GRCh37.chain"

def _CHAIN_38_HG38 : String := "GRCh38_to_hg38.chain"

/-- `_CHAIN_LISTS` (lift.py lines 27-40): the chain registry, a fixed
lookup from ordered build pairs to hop lists; `none` models the
`KeyError` a Python dict raises on a missing pair. -/
def _CHAIN_LISTS : String × String → Option (List String)
  | ("grch37", "grch38") => some [_CHAIN_37_38]
  | ("grch37", "hg19") => some [_CHAIN_37_HG19]
  | ("grch37", "hg38") => some [_CHAIN_37_HG38]
  | ("grch38", "grch37") => some [_CHAIN_38_37]
  | ("grch38", "hg19") => some [_CHAIN_38_37, _CHAIN_37_HG19]
  | ("grch38", "hg38") => some [_CHAIN_38_HG38]
  | ("hg19", "grch37") => some [_CHAIN_HG19_37]
  | ("hg19", "grch38") => some [_CHAIN_HG19_HG38, _CHAIN_HG38_38]
  | ("hg19", "hg38") => some [_CHAIN_HG19_HG38]
  | ("hg38", "grch37") => some [_CHAIN_HG38_HG19, _CHAIN_HG19_37]
  | ("hg38", "grch38") => some [_CHAIN_HG38_38]
  | ("hg38", "hg19") => some [_CHAIN_HG38_HG19]
  | _ => none

/-- One record of a BED interval file: chromosome, (0-based) start,
end, and the synthetic row index (`ind` column written by the code). -/
structure BedRec where
  chrom : Value
  start : Int
  stop : Value
  ind : Nat
deriving DecidableEq, Repr

/-- Result of one invocation of the external `liftOver` binary: its
exit status and the records of the mapped-output file it wrote. -/
structure ExtResult where
  exitCode : Int
  mapped : List BedRec
deriving Repr

/-- The external conversion tool as an oracle: chain-file name and
input records determine exit code and mapped output.  The code never
interprets the tool's mapping, so claims quantify over this. -/
abbrev ExtTool := String → List BedRec → ExtResult

/-- Observable side effects of one pipeline run, in order. -/
inductive Effect where
  | madeBedFile
  | ranTool (chain : String) (exitCode : Int)
  | removedFiles
deriving DecidableEq, Repr

/-- Exceptions of the pipeline, one constructor per raising site:
`buildArgument` = `BuildArgumentException` (line 57); `missingChain` =
`TypeError` for an absent chain list (line 91); `keyError` = pandas
`KeyError` (missing column label, e.g. `df[use_cols]` with `None`);
`valueError` = pandas `ValueError` (`read_csv` with duplicate `names`,
or its `EmptyDataError` subclass on an empty bed file);
`attributeError` = `n.Start_Position` on a frame without that column
(line 120); `typeError` = arithmetic or `astype(int)` on a
non-integer column; `indexingError` = boolean-mask indexing with an
unalignable (duplicate-labelled) mask (line 130). -/
inductive LiftError where
  | buildArgument
  | missingChain
  | keyError
  | valueError
  | attributeError
  | typeError
  | indexingError
deriving DecidableEq, Repr

/-- `_make_bed` (lift.py lines 183-197) preceded by the caller's
`df[use_cols]` selection (line 100): check the resolved columns exist,
then emit one record per row with `start - 1` (line 194) and the row's
index as the `ind` field (line 103).  When the end column has fallen
back to the start column (`end_pos = start_pos`), the assignment
`bed_df[start_pos] = bed_df[start_pos] - 1` decrements *every* column
labelled with the start name, so the record's end field is the
decremented start as well (end = start in the written bed); the
duplicated label also makes the `data[[...]]` selection repeat the
start column, widening the file beyond four fields, but the extra
copies are not modelled because the fallback pipeline always dies at
the duplicate-`names` `read_csv` before the file shape matters.
Subtracting 1 from a string start cell is the `TypeError` pandas
raises there; a missing start cell would propagate as `NaN - 1 = NaN`
in pandas, which the model conservatively rejects instead, narrowing
coverage to frames whose start cells are integers. -/
def _make_bed (chrom start_pos end_pos : String) (data : DataFrame) :
    Except LiftError (List BedRec) :=
  if chrom ∈ data.cols ∧ start_pos ∈ data.cols ∧ end_pos ∈ data.cols then
    data.rows.mapM (fun p =>
      match getCell p.2 start_pos with
      | some (Value.int s) =>
          Except.ok { chrom := (getCell p.2 chrom).getD Value.null
                    , start := s - 1
                    , stop := if end_pos = start_pos then Value.int (s - 1)
                              else (getCell p.2 end_pos).getD Value.null
                    , ind := p.1 }
      | some _ => Except.error LiftError.typeError
      | none => Except.error LiftError.keyError)
  else
    Except.error LiftError.keyError

/-- The hop loop (lift.py lines 108-116): run the tool once per chain
file, feeding each hop's mapped output to the next, recording one
effect per subprocess; the exit code is recorded but — exactly as in
`_lift_bed` (lines 151-180), which never consults `p.returncode` —
never examined. -/
def runHops (tool : ExtTool) : List String → List BedRec →
    List Effect × List BedRec
  | [], bed => ([], bed)
  | chain :: rest, bed =>
    let r := tool chain bed
    let next := runHops tool rest r.mapped
    (Effect.ranTool chain r.exitCode :: next.1, next.2)

/-- The chain file named by a subprocess effect, if any. -/
def effChain : Effect → Option String
  | Effect.ranTool chain _ => some chain
  | _ => none

/-- `pd.read_csv(current_bed, header=None, sep='\t', names=[chr_col,
start_col, end_col, 'ind'])` (lines 118-119): duplicate entries in
`names` raise `ValueError` (validated before the file is parsed), and
an empty file raises `EmptyDataError`, a `ValueError` subclass;
otherwise each record becomes a row, and `set_index('ind')` (line 121)
makes the record's `ind` the row index. -/
def readBedAsFrame (chr_col start_col end_col : String)
    (recs : List BedRec) : Except LiftError (List (Nat × Row)) :=
  if ([chr_col, start_col, end_col, "ind"] : List String).Nodup then
    if recs.isEmpty then
      Except.error LiftError.valueError
    else
      Except.ok (recs.map (fun rec =>
        (rec.ind, [(chr_col, rec.chrom), (start_col, Value.int rec.start),
                   (end_col, rec.stop)])))
  else
    Except.error LiftError.valueError

/-- Adding 1 to one cell for `n.Start_Position += 1`: integers
increment, missing values stay missing (`NaN + 1 = NaN`), strings raise
`TypeError`. -/
def addOneValue : Value → Except LiftError Value
  | Value.int k => Except.ok (Value.int (k + 1))
  | Value.null => Except.ok Value.null
  | Value.str _ => Except.error LiftError.typeError

/-- Replace the first cell labelled `c` using `f`, threading errors. -/
def mapFirstCell (f : Value → Except LiftError Value) (c : String) :
    Row → Except LiftError Row
  | [] => Except.ok []
  | cell :: rest =>
    if cell.1 = c then
      match f cell.2 with
      | Except.ok v => Except.ok ((c, v) :: rest)
      | Except.error e => Except.error e
    else
      match mapFirstCell f c rest with
      | Except.ok r => Except.ok (cell :: r)
      | Except.error e => Except.error e

/-- `n.Start_Position += 1` (lift.py line 120): attribute access on the
literal name `Start_Position`; raises `AttributeError` when the frame
read back from the final bed file has no such column. -/
def addOneStartPos (ncols : List String) (nrows : List (Nat × Row)) :
    Except LiftError (List (Nat × Row)) :=
  if "Start_Position" ∈ ncols then
    nrows.mapM (fun p =>
      match mapFirstCell addOneValue "Start_Position" p.2 with
      | Except.ok r => Except.ok (p.1, r)
      | Except.error e => Except.error e)
  else
    Except.error LiftError.attributeError

/-- The `lsuffix='_orig'` renaming of the left join: a left label
colliding with a joined-frame label gets the `_orig` suffix. -/
def renOrig (ncols : List String) (c : String) : String :=
  if c ∈ ncols then c ++ "_orig" else c

/-- The joined output rows produced for one original row: its cells
(renamed per `renOrig`) followed by the matching joined rows' cells,
or a null-filled right side when no joined row shares its index. -/
def joinRowBlock (ncols : List String) (nrows : List (Nat × Row))
    (p : Nat × Row) : List (Nat × Row) :=
  match nrows.filter (fun q => q.1 == p.1) with
  | [] => [(p.1, p.2.map (fun cell => (renOrig ncols cell.1, cell.2))
             ++ ncols.map (fun c => (c, Value.null)))]
  | ms => ms.map (fun q =>
      (p.1, p.2.map (fun cell => (renOrig ncols cell.1, cell.2)) ++ q.2))

/-- `df_orig.join(n, how='left', lsuffix='_orig')` (lift.py line 128):
left columns colliding with the joined frame's are suffixed `_orig`;
every original row is kept, matched by index against the joined rows
(one output row per match, a null-filled right side when unmatched). -/
def joinLeftOrig (df : DataFrame) (ncols : List String)
    (nrows : List (Nat × Row)) : DataFrame :=
  { cols := df.cols.map (renOrig ncols) ++ ncols
  , rows := df.rows.flatMap (joinRowBlock ncols nrows) }

/-- `df_orig[df2.Start_Position.isnull()]` (lift.py line 130): the
boolean mask is aligned to `df_orig` by index label (pandas semantics
for a uniquely-labelled mask): a row is kept when the joined row with
its index has a missing `Start_Position`. -/
def unliftedOf (df : DataFrame) (df2rows : List (Nat × Row)) :
    List (Nat × Row) :=
  df.rows.filter (fun p =>
    match df2rows.find? (fun q => q.1 == p.1) with
    | some q => ((getCell q.2 "Start_Position").getD Value.null) == Value.null
    | none => false)

/-- `df2.dropna(axis=0, how='any', subset=[start_col, end_col])`
(lift.py line 133): `KeyError` if a subset label is absent, else keep
rows whose start and end cells are both present. -/
def dropnaStartEnd (df2 : DataFrame) (start_col end_col : String) :
    Except LiftError DataFrame :=
  if start_col ∈ df2.cols ∧ end_col ∈ df2.cols then
    Except.ok { cols := df2.cols
              , rows := df2.rows.filter (fun q =>
                  ((getCell q.2 start_col).getD Value.null) != Value.null
                  && ((getCell q.2 end_col).getD Value.null) != Value.null) }
  else
    Except.error LiftError.keyError

/-- `astype(int)` on one cell: integers pass, anything else raises. -/
def castIntValue : Value → Except LiftError Value
  | Value.int k => Except.ok (Value.int k)
  | _ => Except.error LiftError.typeError

/-- `df2[c] = df2[c].astype(int)` (lift.py lines 134-135). -/
def astypeIntCol (df : DataFrame) (c : String) :
    Except LiftError DataFrame :=
  if c ∈ df.cols then
    match df.rows.mapM (fun p =>
        match mapFirstCell castIntValue c p.2 with
        | Except.ok r => Except.ok (p.1, r)
        | Except.error e => Except.error e) with
    | Except.ok rs => Except.ok { cols := df.cols, rows := rs }
    | Except.error e => Except.error e
  else
    Except.error LiftError.keyError

/-- One row under `df2.rename(columns={old: new})`. -/
def renameCellRow (old new : String) (r : Row) : Row :=
  r.map (fun cell => if cell.1 = old then (new, cell.2) else cell)

/-- `df2.rename(columns={old: new})`: relabel every matching column. -/
def renameCol (df : DataFrame) (old new : String) : DataFrame :=
  { cols := df.cols.map (fun c => if c = old then new else c)
  , rows := df.rows.map (fun p => (p.1, renameCellRow old new p.2)) }

/-- One row under scalar column assignment: overwrite the (first) cell
labelled `c`, or append the cell when the row has none — pandas gives
every row the assigned value. -/
def setCellRow (c : String) (v : Value) : Row → Row
  | [] => [(c, v)]
  | cell :: rest =>
    if cell.1 = c then (c, v) :: rest else cell :: setCellRow c v rest

/-- `df2[c] = v` with a scalar: every row receives the value; the
column label is appended when not already present. -/
def setCol (df : DataFrame) (c : String) (v : Value) : DataFrame :=
  { cols := if c ∈ df.cols then df.cols else df.cols ++ [c]
  , rows := df.rows.map (fun p => (p.1, setCellRow c v p.2)) }

/-- `df2.drop([...", axis=1)` (lift.py lines 145-146): `KeyError` when
a label is absent, else remove every cell and label in the list. -/
def dropCols (df : DataFrame) (cs : List String) :
    Except LiftError DataFrame :=
  if ∀ c ∈ cs, c ∈ df.cols then
    Except.ok { cols := df.cols.filter (fun c => decide (c ∉ cs))
              , rows := df.rows.map (fun p =>
                  (p.1, p.2.filter (fun cell => decide (cell.1 ∉ cs)))) }
  else
    Except.error LiftError.keyError

/-- Python truthiness of the optional `new_build_name` string argument
(`if new_build_name:`): `None` and the empty string are falsy. -/
def truthyStr : Option String → Bool
  | none => false
  | some s => !s.isEmpty

/-- lift.py lines 133-146: dropna, integer casts, and the build-column
branch (rename to `_orig` under `keep_orig`, write the new label, drop
the `_orig` coordinate copies otherwise). -/
def reconcileTail (df2 : DataFrame) (chr_col start_col end_col : String)
    (build_col : Option String) (keep_orig : Bool)
    (new_build_name : Option String) : Except LiftError DataFrame :=
  match dropnaStartEnd df2 start_col end_col with
  | Except.error e => Except.error e
  | Except.ok dfA =>
    match astypeIntCol dfA start_col with
    | Except.error e => Except.error e
    | Except.ok dfB =>
      match astypeIntCol dfB end_col with
      | Except.error e => Except.error e
      | Except.ok dfC =>
        match build_col with
        | none => Except.ok dfC
        | some b =>
          if keep_orig then
            let dfD := renameCol dfC b (b ++ "_orig")
            Except.ok (if truthyStr new_build_name then
                         setCol dfD b (Value.str (new_build_name.getD ""))
                       else dfD)
          else
            let dfD := if truthyStr new_build_name then
                         setCol dfC b (Value.str (new_build_name.getD ""))
                       else dfC
            dropCols dfD [chr_col ++ "_orig", start_col ++ "_orig",
                          end_col ++ "_orig"]

/-- `end_col = end_col if end_col else start_col` composed with the
fuzzy matches (lift.py lines 94-96): the resolved end column. -/
def resolvedEnd (cols : List String) : Option String :=
  (_match_column_str "end" cols).orElse (fun _ => _match_column_str "start" cols)

/-- The body of `_lift_with_chains` after the chain-list check, for a
present chain list (lift.py lines 92-148). -/
def liftResolved (tool : ExtTool) (df : DataFrame) (keep_orig : Bool)
    (chains : List String) (new_build_name : Option String)
    (keep_intermediate : Bool) :
    List Effect × Except LiftError (DataFrame × DataFrame) :=
  match _match_column_str "chrom" df.cols, _match_column_str "start" df.cols,
      resolvedEnd df.cols with
  | some chr_col, some start_col, some end_col =>
    match _make_bed chr_col start_col end_col df with
    | Except.error e => ([], Except.error e)
    | Except.ok bed0 =>
      match readBedAsFrame chr_col start_col end_col
          (runHops tool chains bed0).2 with
      | Except.error e =>
          (Effect.madeBedFile :: (runHops tool chains bed0).1, Except.error e)
      | Except.ok nrows0 =>
        match addOneStartPos [chr_col, start_col, end_col] nrows0 with
        | Except.error e =>
            (Effect.madeBedFile :: (runHops tool chains bed0).1,
             Except.error e)
        | Except.ok nrows =>
          if (joinLeftOrig df [chr_col, start_col, end_col] nrows).rows.length
              = df.rows.length then
            match reconcileTail
                (joinLeftOrig df [chr_col, start_col, end_col] nrows)
                chr_col start_col end_col (_match_column_str "build" df.cols)
                keep_orig new_build_name with
            | Except.error e =>
                ((Effect.madeBedFile :: (runHops tool chains bed0).1)
                   ++ (if keep_intermediate then []
                       else [Effect.removedFiles]),
                 Except.error e)
            | Except.ok res =>
                ((Effect.madeBedFile :: (runHops tool chains bed0).1)
                   ++ (if keep_intermediate then []
                       else [Effect.removedFiles]),
                 Except.ok (res,
                   ⟨df.cols, unliftedOf df
                     (joinLeftOrig df [chr_col, start_col, end_col]
                        nrows).rows⟩))
          else
            ((Effect.madeBedFile :: (runHops tool chains bed0).1)
               ++ (if keep_intermediate then [] else [Effect.removedFiles]),
             Except.error LiftError.indexingError)
  | _, _, _ => ([], Except.error LiftError.keyError)

/-- `_lift_with_chains` (lift.py lines 79-148).  A `None` chain list
raises `TypeError("At least one chain file is required.")` (lines
90-91); note the code tests `chain_list is None`, not emptiness. -/
def _lift_with_chains (tool : ExtTool) (df : DataFrame) (keep_orig : Bool)
    (chain_list : Option (List String)) (new_build_name : Option String)
    (keep_intermediate : Bool) :
    List Effect × Except LiftError (DataFrame × DataFrame) :=
  match chain_list with
  | none => ([], Except.error LiftError.missingChain)
  | some chains =>
      liftResolved tool df keep_orig chains new_build_name keep_intermediate

/-- `lift_over` (lift.py lines 43-62): validate the builds, resolve the
chain list from the registry, and delegate with the build label
hardcoded to `'GRCh37'` (line 60). -/
def lift_over (tool : ExtTool) (df : DataFrame)
    (build_in build_out : String) (keep_orig : Bool := false)
    (keep_intermediate : Bool := false) :
    List Effect × Except LiftError (DataFrame × DataFrame) :=
  if build_in ∈ VALID_BUILDS ∧ build_out ∈ VALID_BUILDS then
    match _CHAIN_LISTS (build_in, build_out) with
    | none => ([], Except.error LiftError.keyError)
    | some chains =>
        _lift_with_chains tool df keep_orig (some chains) (some "GRCh37")
          keep_intermediate
  else
    ([], Except.error LiftError.buildArgument)

/-- The identity external tool: exits 0 and maps every record to
itself (the "identity mapping stub" of the specification's tests). -/
def idTool : ExtTool := fun _ recs => { exitCode := 0, mapped := recs }

/-- A tool stub that performs identity mapping but exits with status 1
on every hop. -/
def failingExitTool : ExtTool := fun _ recs => { exitCode := 1, mapped := recs }

/-- A one-row table with canonical MAF-style coordinate columns. -/
def df3 : DataFrame :=
  { cols := ["Chromosome", "Start_Position", "End_Position"]
  , rows := [(0, [("Chromosome", Value.str "chr1"),
                  ("Start_Position", Value.int 100),
                  ("End_Position", Value.int 200)])] }

/-- `df3` extended with a `Build` label column. -/
def dfB : DataFrame :=
  { cols := ["Chromosome", "Start_Position", "End_Position", "Build"]
  , rows := [(0, [("Chromosome", Value.str "chr1"),
                  ("Start_Position", Value.int 100),
                  ("End_Position", Value.int 200),
                  ("Build", Value.str "hg19")])] }

/-- A table whose start column is named `StartPos` (not the literal
`Start_Position` the reconciler accesses) with a distinct end column. -/
def dfBad : DataFrame :=
  { cols := ["Chromosome", "StartPos", "EndPos"]
  , rows := [(0, [("Chromosome", Value.str "chr1"),
                  ("StartPos", Value.int 100),
                  ("EndPos", Value.int 200)])] }

/-- A table with a `StartPos` start column and no end-column match. -/
def dfBad2 : DataFrame :=
  { cols := ["Chromosome", "StartPos"]
  , rows := [(0, [("Chromosome", Value.str "chr1"),
                  ("StartPos", Value.int 100)])] }

/-- A one-row table whose end-position cell is missing (`NaN`). -/
def dfNullEnd : DataFrame :=
  { cols := ["Chromosome", "Start_Position", "End_Position"]
  , rows := [(0, [("Chromosome", Value.str "chr1"),
                  ("Start_Position", Value.int 100),
                  ("End_Position", Value.null)])] }

/-- Decidable equality of `Except` results, so counterexamples can be
checked by evaluation. -/
instance {ε α : Type} [DecidableEq ε] [DecidableEq α] :
    DecidableEq (Except ε α) := fun a b =>
  match a, b with
  | Except.ok x, Except.ok y =>
    if h : x = y then isTrue (by rw [h])
    else isFalse (fun hc => h (Except.ok.inj hc))
  | Except.error x, Except.error y =>
    if h : x = y then isTrue (by rw [h])
    else isFalse (fun hc => h (Except.error.inj hc))
  | Except.ok _, Except.error _ => isFalse (fun hc => Except.noConfusion hc)
  | Except.error _, Except.ok _ => isFalse (fun hc => Except.noConfusion hc)

/-! ## General list helpers -/

/-- `find?` returns the first match: the list splits at the found
element with no earlier match. -/
theorem find?_decomp {α : Type} {p : α → Bool} {l : List α} {a : α}
    (h : l.find? p = some a) :
    ∃ l₁ l₂, l = l₁ ++ a :: l₂ ∧ ∀ x ∈ l₁, p x = false := by
  induction l with
  | nil => simp at h
  | cons b t ih =>
    rw [List.find?_cons] at h
    by_cases hb : p b = true
    · simp only [hb] at h
      have hba : b = a := Option.some.inj h
      subst hba
      exact ⟨[], t, rfl, by simp⟩
    · simp only [Bool.not_eq_true] at hb
      simp only [hb] at h
      obtain ⟨l₁, l₂, rfl, hl⟩ := ih h
      exact ⟨b :: l₁, l₂, rfl, by
        intro x hx
        rcases List.mem_cons.mp hx with rfl | hx
        · exact hb
        · exact hl x hx⟩

/-- Two decompositions of one list around distinct elements: one of
the elements lies strictly before the other. -/
theorem append_cons_eq_append_cons {α : Type} {u v u' v' : List α}
    {a b : α} (h : u ++ a :: v = u' ++ b :: v') (hne : a ≠ b) :
    a ∈ u' ∨ b ∈ u := by
  induction u generalizing u' with
  | nil =>
    cases u' with
    | nil => simp only [List.nil_append, List.cons.injEq] at h; exact absurd h.1 hne
    | cons c t =>
      simp only [List.nil_append, List.cons_append, List.cons.injEq] at h
      exact Or.inl (h.1 ▸ List.mem_cons_self c t)
  | cons c t ih =>
    cases u' with
    | nil =>
      simp only [List.cons_append, List.nil_append, List.cons.injEq] at h
      exact Or.inr (h.1 ▸ List.mem_cons_self c t)
    | cons c' t' =>
      simp only [List.cons_append, List.cons.injEq] at h
      rcases ih h.2 with hm | hm
      · exact Or.inl (List.mem_cons_of_mem _ hm)
      · exact Or.inr (List.mem_cons_of_mem _ hm)

/-- When two `find?` searches on the same list each return an element
satisfying the other's predicate, they found the same element. -/
theorem find?_both {α : Type} {p q : α → Bool} {l : List α} {a b : α}
    (hp : l.find? p = some a) (hq : l.find? q = some b)
    (hqa : q a = true) (hpb : p b = true) : a = b := by
  by_contra hne
  obtain ⟨u, v, rfl, hu⟩ := find?_decomp hp
  obtain ⟨u', v', heq, hu'⟩ := find?_decomp hq
  rcases append_cons_eq_append_cons heq hne with hm | hm
  · exact absurd hqa (by simp [hu' _ hm])
  · exact absurd hpb (by simp [hu _ hm])

/-- An infix of an appended list is an infix of one side, or straddles
the boundary with a nonempty tail landing as a prefix of the right
part. -/
theorem infix_append_split {α : Type} {n a f : List α}
    (h : n <:+: a ++ f) :
    n <:+: a ∨ n <:+: f ∨
      ∃ k, k < n.length ∧ 0 < k ∧ n.drop k <+: f := by
  obtain ⟨s, t, hst⟩ := h
  by_cases h1 : s.length + n.length ≤ a.length
  · left
    have hsn : s ++ n <+: a ++ f := ⟨t, by simpa [List.append_assoc] using hst⟩
    have hpa : s ++ n <+: a :=
      List.prefix_of_prefix_length_le hsn (List.prefix_append a f)
        (by simpa using h1)
    obtain ⟨r, hr⟩ := hpa
    exact ⟨s, r, by simpa [List.append_assoc] using hr⟩
  · by_cases h2 : a.length ≤ s.length
    · right; left
      have hnt : n ++ t <:+ a ++ f := ⟨s, by simpa [List.append_assoc] using hst⟩
      have hlen : (n ++ t).length ≤ f.length := by
        have := congrArg List.length hst
        simp only [List.length_append] at this ⊢
        omega
      have hsf : n ++ t <:+ f :=
        List.suffix_of_suffix_length_le hnt (List.suffix_append a f) hlen
      obtain ⟨w, hw⟩ := hsf
      exact ⟨w, t, by simpa [List.append_assoc] using hw⟩
    · right; right
      push_neg at h1 h2
      refine ⟨a.length - s.length, by omega, by omega, ?_⟩
      have hdrop := congrArg (List.drop a.length) hst
      rw [List.drop_left' rfl] at hdrop
      have hle : a.length ≤ (s ++ n).length := by
        simp only [List.length_append]; omega
      rw [List.drop_append_of_le_length hle] at hdrop
      have hsn : (s ++ n).drop a.length = n.drop (a.length - s.length) := by
        have hal : a.length = s.length + (a.length - s.length) := by omega
        rw [hal, List.drop_append]
        congr 1
        omega
      rw [hsn] at hdrop
      exact ⟨t, hdrop⟩

/-! ## String and column-matching lemmas -/

theorem lowerStr_data_append (a b : String) :
    (lowerStr (a ++ b)).data = (lowerStr a).data ++ (lowerStr b).data := by
  simp [lowerStr, String.data_append]

theorem lowerStr_orig : (lowerStr "_orig").data = "_orig".data := by decide

theorem strContains_iff {hay needle : String} :
    strContains hay needle = true ↔ needle.data <:+: hay.data := by
  simp [strContains]

theorem match_col_mem {val : String} {cols : List String} {c : String}
    (h : _match_column_str val cols = some c) : c ∈ cols :=
  List.mem_of_find?_eq_some h

theorem match_col_infix {val : String} {cols : List String} {c : String}
    (h : _match_column_str val cols = some c) :
    val.data <:+: (lowerStr c).data := by
  have := List.find?_some h
  exact strContains_iff.mp this

/-- A needle that is an infix of `x ++ "_orig"` (lowercased) but not of
`"_orig"` and whose proper tails are not prefixes of `"_orig"` already
occurs inside `x`. -/
theorem infix_of_infix_append_orig {n : List Char} {x : String}
    (hno : ¬ n <:+: "_orig".data)
    (hk : ∀ k, k < n.length → 0 < k → ¬ n.drop k <+: "_orig".data)
    (h : n <:+: (lowerStr (x ++ "_orig")).data) :
    n <:+: (lowerStr x).data := by
  rw [lowerStr_data_append, lowerStr_orig] at h
  rcases infix_append_split h with h | h | ⟨k, hk1, hk2, hp⟩
  · exact h
  · exact absurd h hno
  · exact absurd hp (hk k hk1 hk2)

theorem build_infix_of_orig {x : String}
    (h : "build".data <:+: (lowerStr (x ++ "_orig")).data) :
    "build".data <:+: (lowerStr x).data :=
  infix_of_infix_append_orig (by decide) (by decide) h

theorem end_infix_of_orig {x : String}
    (h : "end".data <:+: (lowerStr (x ++ "_orig")).data) :
    "end".data <:+: (lowerStr x).data :=
  infix_of_infix_append_orig (by decide) (by decide) h

theorem chrom_infix_of_orig {x : String}
    (h : "chrom".data <:+: (lowerStr (x ++ "_orig")).data) :
    "chrom".data <:+: (lowerStr x).data :=
  infix_of_infix_append_orig (by decide) (by decide) h

/-- An infix of `x` is an infix of `x ++ y` (lowercased data). -/
theorem infix_lower_append_left {n : List Char} {x y : String}
    (h : n <:+: (lowerStr x).data) : n <:+: (lowerStr (x ++ y)).data := by
  rw [lowerStr_data_append]
  exact h.trans (List.infix_append [] _ _)

/-- Appending `"_orig"` strictly lengthens a string. -/
theorem append_orig_ne (x : String) : x ++ "_orig" ≠ x := by
  intro h
  have := congrArg (fun s => s.data.length) h
  simp [String.data_append] at this

/-- `"Start_Position"` is not of the form `x ++ "_orig"`. -/
theorem start_position_not_orig (x : String) :
    x ++ "_orig" ≠ "Start_Position" := by
  intro h
  have hd := congrArg String.data h
  rw [String.data_append] at hd
  have hsuf : "_orig".data <:+ "Start_Position".data := ⟨x.data, hd⟩
  revert hsuf
  decide

/-! ## `mapM` and `flatMap` helpers -/

theorem mapM_ok_iff {α β : Type} {f : α → Except LiftError β} :
    ∀ {l : List α} {l' : List β},
      l.mapM f = Except.ok l' ↔
        List.Forall₂ (fun x y => f x = Except.ok y) l l' := by
  intro l
  induction l with
  | nil =>
    intro l'
    constructor
    · intro h
      simp only [List.mapM_nil] at h
      cases h
      exact List.Forall₂.nil
    · intro h
      cases h
      rfl
  | cons a t ih =>
    intro l'
    constructor
    · intro h
      rw [List.mapM_cons] at h
      cases hfa : f a with
      | error e => simp [hfa, bind, Except.bind] at h
      | ok b =>
        simp only [hfa, bind, Except.bind] at h
        cases hft : t.mapM f with
        | error e => rw [hft] at h; simp [Except.bind] at h
        | ok bs =>
          rw [hft] at h
          simp only [pure, Except.pure, Except.ok.injEq] at h
          subst h
          exact List.Forall₂.cons hfa (ih.mp hft)
    · intro h
      cases h with
      | cons hab ht =>
        rw [List.mapM_cons, hab]
        simp only [bind, Except.bind]
        rw [ih.mpr ht]
        rfl

theorem forall₂_mem_right {α β : Type} {R : α → β → Prop} :
    ∀ {l : List α} {l' : List β}, List.Forall₂ R l l' →
      ∀ y ∈ l', ∃ x ∈ l, R x y := by
  intro l l' h
  induction h with
  | nil => intro y hy; cases hy
  | cons hab _ ih =>
    intro y hy
    rcases List.mem_cons.mp hy with rfl | hy
    · exact ⟨_, List.mem_cons_self _ _, hab⟩
    · obtain ⟨x, hx, hr⟩ := ih y hy
      exact ⟨x, List.mem_cons_of_mem _ hx, hr⟩

theorem forall₂_mem_left {α β : Type} {R : α → β → Prop} :
    ∀ {l : List α} {l' : List β}, List.Forall₂ R l l' →
      ∀ x ∈ l, ∃ y ∈ l', R x y := by
  intro l l' h
  induction h with
  | nil => intro x hx; cases hx
  | cons hab _ ih =>
    intro x hx
    rcases List.mem_cons.mp hx with rfl | hx
    · exact ⟨_, List.mem_cons_self _ _, hab⟩
    · obtain ⟨y, hy, hr⟩ := ih x hx
      exact ⟨y, List.mem_cons_of_mem _ hy, hr⟩

/-- A `Forall₂` out of a mapped list with a functionally determined
relation forces the right list to be the corresponding map. -/
theorem forall₂_map_eq {α β γ : Type} {R : β → γ → Prop} {g : α → β}
    {g' : α → γ} (hfun : ∀ a c, R (g a) c → c = g' a) :
    ∀ {l : List α} {l' : List γ},
      List.Forall₂ R (l.map g) l' → l' = l.map g' := by
  intro l
  induction l with
  | nil => intro l' h; cases h; rfl
  | cons a t ih =>
    intro l' h
    rw [List.map_cons] at h
    cases h with
    | cons hab ht => rw [List.map_cons, ← ih ht, hfun a _ hab]

theorem flatMap_length_ge {α β : Type} {f : α → List β} {l : List α}
    (h1 : ∀ a ∈ l, 1 ≤ (f a).length) : l.length ≤ (l.flatMap f).length := by
  induction l with
  | nil => simp
  | cons a t ih =>
    simp only [List.flatMap_cons, List.length_append, List.length_cons]
    have ha := h1 a (List.mem_cons_self a t)
    have ht := ih (fun x hx => h1 x (List.mem_cons_of_mem _ hx))
    omega

/-- If every block has at least one element and the flattened length
equals the number of blocks, every block has exactly one element. -/
theorem flatMap_blocks_singleton {α β : Type} {f : α → List β}
    {l : List α} (h1 : ∀ a ∈ l, 1 ≤ (f a).length)
    (h2 : (l.flatMap f).length = l.length) :
    ∀ a ∈ l, (f a).length = 1 := by
  induction l with
  | nil => intro a ha; cases ha
  | cons a t ih =>
    simp only [List.flatMap_cons, List.length_append, List.length_cons] at h2
    have ha := h1 a (List.mem_cons_self a t)
    have ht := flatMap_length_ge (fun x hx => h1 x (List.mem_cons_of_mem _ hx))
    intro x hx
    rcases List.mem_cons.mp hx with rfl | hx
    · omega
    · exact ih (fun y hy => h1 y (List.mem_cons_of_mem _ hy)) (by omega) x hx

/-! ## Pipeline-structural lemmas -/

theorem runHops_chain_order (tool : ExtTool) :
    ∀ (chains : List String) (bed0 : List BedRec),
      ((runHops tool chains bed0).1).map effChain = chains.map some := by
  intro chains
  induction chains with
  | nil => intro bed0; rfl
  | cons c cs ih => intro bed0; simp [runHops, effChain, ih]

theorem runHops_mapped_congr {t1 t2 : ExtTool}
    (hmap : ∀ chain recs, (t1 chain recs).mapped = (t2 chain recs).mapped) :
    ∀ (chains : List String) (bed : List BedRec),
      (runHops t1 chains bed).2 = (runHops t2 chains bed).2 := by
  intro chains
  induction chains with
  | nil => intro bed; rfl
  | cons c cs ih =>
    intro bed
    simp only [runHops]
    rw [hmap c bed, ih (t2 c bed).mapped]

theorem runHops_last {tool : ExtTool} :
    ∀ {chains : List String} (bed : List BedRec), chains ≠ [] →
      ∃ chain recs, (runHops tool chains bed).2 = (tool chain recs).mapped := by
  intro chains
  induction chains with
  | nil => intro bed h; exact absurd rfl h
  | cons c cs ih =>
    intro bed _
    cases cs with
    | nil => exact ⟨c, bed, rfl⟩
    | cons c2 cs2 =>
      obtain ⟨chain, recs, h⟩ := ih (tool c bed).mapped (by simp)
      exact ⟨chain, recs, by simpa [runHops] using h⟩

/-! ## Claim C3: chain registry contents and hop order -/

/-- C3: every ordered pair of distinct valid builds resolves to a fixed
list of one or two chain-file names; `(grch38, hg19)` resolves to the
two-entry list routing through grch37 (`GRCh38_to_GRCh37.chain` then
`GRCh37_to_hg19.chain`); and the list order is the order in which the
hop loop invokes the external tool. -/
theorem c3_chain_registry :
    (∀ b1 ∈ VALID_BUILDS, ∀ b2 ∈ VALID_BUILDS, b1 ≠ b2 →
      ∃ l, _CHAIN_LISTS (b1, b2) = some l ∧ (l.length = 1 ∨ l.length = 2)) ∧
    (_CHAIN_LISTS ("grch38", "hg19") =
      some ["GRCh38_to_GRCh37.chain", "GRCh37_to_hg19.chain"]) ∧
    (∀ (tool : ExtTool) (chains : List String) (bed0 : List BedRec),
      ((runHops tool chains bed0).1).map effChain = chains.map some) := by
  refine ⟨?_, by decide, fun tool => runHops_chain_order tool⟩
  intro b1 hb1 b2 hb2 hne
  fin_cases hb1 <;> fin_cases hb2 <;>
    first
      | exact absurd rfl hne
      | exact ⟨_, rfl, by decide⟩

/-- Witness for C3 at the concrete pair `(grch38, hg19)`. -/
theorem c3_witness :
    ("grch38" ∈ VALID_BUILDS ∧ "hg19" ∈ VALID_BUILDS ∧ "grch38" ≠ "hg19") ∧
    (∃ l, _CHAIN_LISTS ("grch38", "hg19") = some l ∧
      (l.length = 1 ∨ l.length = 2)) :=
  ⟨⟨by decide, by decide, by decide⟩,
    c3_chain_registry.1 "grch38" (by decide) "hg19" (by decide) (by decide)⟩

/-! ## Claim C7: invalid build fails fast with no side effects -/

/-- C7: for any build argument outside the valid set, `lift_over`
raises the build-argument error with an empty effect trace: no file is
created and no subprocess is started. -/
theorem c7_invalid_build_fails_fast (tool : ExtTool) (df : DataFrame)
    (build_in build_out : String) (keep_orig keep_intermediate : Bool)
    (h : build_in ∉ VALID_BUILDS ∨ build_out ∉ VALID_BUILDS) :
    lift_over tool df build_in build_out keep_orig keep_intermediate =
      ([], Except.error LiftError.buildArgument) := by
  unfold lift_over
  have hneg : ¬(build_in ∈ VALID_BUILDS ∧ build_out ∈ VALID_BUILDS) := by
    tauto
  rw [if_neg hneg]

/-- Witness for C7 at the invalid build token `"hg99"`. -/
theorem c7_witness :
    ("hg99" ∉ VALID_BUILDS ∨ "hg38" ∉ VALID_BUILDS) ∧
    lift_over idTool df3 "hg99" "hg38" false false =
      ([], Except.error LiftError.buildArgument) :=
  ⟨Or.inl (by decide),
    c7_invalid_build_fails_fast idTool df3 "hg99" "hg38" false false
      (Or.inl (by decide))⟩

/-! ## Claim C8: the missing-chain error and its reachability -/

theorem mapM_error_mem {α β : Type} {f : α → Except LiftError β} :
    ∀ {l : List α} {e : LiftError}, l.mapM f = Except.error e →
      ∃ x ∈ l, f x = Except.error e := by
  intro l
  induction l with
  | nil => intro e h; rw [List.mapM_nil] at h; cases h
  | cons a t ih =>
    intro e h
    rw [List.mapM_cons] at h
    cases hfa : f a with
    | error e2 =>
      simp only [hfa, bind, Except.bind] at h
      cases h
      exact ⟨a, List.mem_cons_self a t, hfa⟩
    | ok b =>
      simp only [hfa, bind, Except.bind] at h
      cases hft : t.mapM f with
      | error e2 =>
        rw [hft] at h
        simp only [Except.error.injEq] at h
        subst h
        obtain ⟨x, hx, hfx⟩ := ih hft
        exact ⟨x, List.mem_cons_of_mem _ hx, hfx⟩
      | ok bs =>
        rw [hft] at h
        simp [pure, Except.pure] at h

theorem mapFirstCell_error {f : Value → Except LiftError Value} {c : String} :
    ∀ {r : Row} {e : LiftError}, mapFirstCell f c r = Except.error e →
      ∃ v, f v = Except.error e := by
  intro r
  induction r with
  | nil => intro e h; cases h
  | cons cell rest ih =>
    intro e h
    unfold mapFirstCell at h
    by_cases hc : cell.1 = c
    · rw [if_pos hc] at h
      cases hf : f cell.2 with
      | ok v => rw [hf] at h; cases h
      | error e2 => rw [hf] at h; cases h; exact ⟨cell.2, hf⟩
    · rw [if_neg hc] at h
      cases hm : mapFirstCell f c rest with
      | ok r2 => rw [hm] at h; cases h
      | error e2 => rw [hm] at h; cases h; exact ih hm

theorem make_bed_error {chrom start_pos end_pos : String} {df : DataFrame}
    {e : LiftError} (h : _make_bed chrom start_pos end_pos df = Except.error e) :
    e = LiftError.typeError ∨ e = LiftError.keyError := by
  unfold _make_bed at h
  split at h
  · obtain ⟨p, _, hp⟩ := mapM_error_mem h
    split at hp
    · cases hp
    · cases hp; exact Or.inl rfl
    · cases hp; exact Or.inr rfl
  · cases h; exact Or.inr rfl

theorem readBedAsFrame_error {chr_col start_col end_col : String}
    {recs : List BedRec} {e : LiftError}
    (h : readBedAsFrame chr_col start_col end_col recs = Except.error e) :
    e = LiftError.valueError := by
  unfold readBedAsFrame at h
  split at h
  · split at h
    · cases h; rfl
    · cases h
  · cases h; rfl

theorem addOneStartPos_error {ncols : List String} {nrows : List (Nat × Row)}
    {e : LiftError} (h : addOneStartPos ncols nrows = Except.error e) :
    e = LiftError.attributeError ∨ e = LiftError.typeError := by
  unfold addOneStartPos at h
  split at h
  · obtain ⟨p, _, hp⟩ := mapM_error_mem h
    cases hm : mapFirstCell addOneValue "Start_Position" p.2 with
    | ok r => rw [hm] at hp; cases hp
    | error e2 =>
      rw [hm] at hp
      cases hp
      obtain ⟨v, hv⟩ := mapFirstCell_error hm
      right
      cases v <;> cases hv
      rfl
  · cases h; exact Or.inl rfl

theorem astypeIntCol_error {df : DataFrame} {c : String} {e : LiftError}
    (h : astypeIntCol df c = Except.error e) :
    e = LiftError.typeError ∨ e = LiftError.keyError := by
  unfold astypeIntCol at h
  split at h
  · split at h
    · cases h
    · cases h
      rename_i hm
      obtain ⟨p, _, hp⟩ := mapM_error_mem hm
      cases hmf : mapFirstCell castIntValue c p.2 with
      | ok r => rw [hmf] at hp; cases hp
      | error e2 =>
        rw [hmf] at hp
        cases hp
        obtain ⟨v, hv⟩ := mapFirstCell_error hmf
        left
        cases v <;> cases hv
        all_goals rfl
  · cases h; exact Or.inr rfl

theorem dropCols_error {df : DataFrame} {cs : List String} {e : LiftError}
    (h : dropCols df cs = Except.error e) : e = LiftError.keyError := by
  unfold dropCols at h
  by_cases hall : ∀ c ∈ cs, c ∈ df.cols
  · rw [if_pos hall] at h; cases h
  · rw [if_neg hall] at h; cases h; rfl

theorem reconcileTail_error {df2 : DataFrame}
    {chr_col start_col end_col : String} {build_col : Option String}
    {keep_orig : Bool} {new_build_name : Option String} {e : LiftError}
    (h : reconcileTail df2 chr_col start_col end_col build_col keep_orig
        new_build_name = Except.error e) :
    e = LiftError.typeError ∨ e = LiftError.keyError := by
  unfold reconcileTail at h
  split at h
  · rename_i e2 hd
    cases h
    unfold dropnaStartEnd at hd
    split at hd
    · cases hd
    · cases hd; exact Or.inr rfl
  · rename_i dfA hd
    split at h
    · rename_i e2 ha
      cases h
      exact astypeIntCol_error ha
    · rename_i dfB ha
      split at h
      · rename_i e2 hb
        cases h
        exact astypeIntCol_error hb
      · rename_i dfC hb
        split at h
        · cases h
        · rename_i b
          split at h
          · cases h
          · exact Or.inr (dropCols_error h)

/-- Every chain-registry entry is a non-empty hop list. -/
theorem chain_lists_ne_nil {b1 b2 : String} {l : List String}
    (h : _CHAIN_LISTS (b1, b2) = some l) : l ≠ [] := by
  unfold _CHAIN_LISTS at h
  split at h <;> cases h <;> simp

theorem liftResolved_ne_missingChain (tool : ExtTool) (df : DataFrame)
    (keep_orig : Bool) (chains : List String) (new_build_name : Option String)
    (keep_intermediate : Bool) :
    (liftResolved tool df keep_orig chains new_build_name
        keep_intermediate).2 ≠ Except.error LiftError.missingChain := by
  unfold liftResolved
  split
  · split
    · rename_i e hme
      intro hc
      simp only [Except.error.injEq] at hc
      subst hc
      rcases make_bed_error hme with h | h <;> cases h
    · split
      · rename_i e hre
        intro hc
        simp only [Except.error.injEq] at hc
        subst hc
        cases readBedAsFrame_error hre
      · split
        · rename_i e hae
          intro hc
          simp only [Except.error.injEq] at hc
          subst hc
          rcases addOneStartPos_error hae with h | h <;> cases h
        · split
          · split
            · rename_i e hrt
              intro hc
              simp only [Except.error.injEq] at hc
              subst hc
              rcases reconcileTail_error hrt with h | h <;> cases h
            · simp
          · simp
  · simp

/-- C8 counterexample: `_lift_with_chains` called with an *empty* hop
list does not signal the missing-chain-parameter error — the code only
checks `chain_list is None` — and on a well-formed table it returns a
result. -/
theorem c8_counterexample :
    (_lift_with_chains idTool df3 false (some ([] : List String))
        (some "GRCh37") false).2 ≠ Except.error LiftError.missingChain ∧
    ((_lift_with_chains idTool df3 false (some ([] : List String))
        (some "GRCh37") false).2).isOk = true := by
  constructor
  · decide
  · decide

/-- C8 (amended): the internal routine signals the missing-chain error
exactly when the hop-list argument is absent (`None`), not when it is
empty; every chain-registry entry is a non-empty list; and the error is
unreachable through the public `lift_over` entry point. -/
theorem c8_missing_chain_amended :
    (∀ (tool : ExtTool) (df : DataFrame) (keep_orig : Bool)
        (new_build_name : Option String) (keep_intermediate : Bool),
      _lift_with_chains tool df keep_orig none new_build_name
          keep_intermediate = ([], Except.error LiftError.missingChain)) ∧
    (∀ (b1 b2 : String) (l : List String),
      _CHAIN_LISTS (b1, b2) = some l → l ≠ []) ∧
    (∀ (tool : ExtTool) (df : DataFrame) (build_in build_out : String)
        (keep_orig keep_intermediate : Bool),
      (lift_over tool df build_in build_out keep_orig
          keep_intermediate).2 ≠ Except.error LiftError.missingChain) := by
  refine ⟨fun _ _ _ _ _ => rfl, fun b1 b2 l h => chain_lists_ne_nil h, ?_⟩
  · intro tool df build_in build_out keep_orig keep_intermediate
    unfold lift_over
    split
    · cases hreg : _CHAIN_LISTS (build_in, build_out) with
      | none => simp [hreg]
      | some chains =>
        simp only [hreg]
        exact liftResolved_ne_missingChain tool df keep_orig chains
          (some "GRCh37") keep_intermediate
    · simp

/-- Witness for C8 (amended) at concrete arguments. -/
theorem c8_witness :
    (_lift_with_chains idTool df3 false none (some "GRCh37") false =
      ([], Except.error LiftError.missingChain)) ∧
    (["GRCh38_to_GRCh37.chain", "GRCh37_to_hg19.chain"] : List String) ≠ [] ∧
    (lift_over idTool df3 "hg19" "hg38" false false).2 ≠
      Except.error LiftError.missingChain :=
  ⟨c8_missing_chain_amended.1 idTool df3 false (some "GRCh37") false,
   c8_missing_chain_amended.2.1 "grch38" "hg19" _ rfl,
   c8_missing_chain_amended.2.2 idTool df3 "hg19" "hg38" false false⟩

/-! ## Claim C6: fuzzy column resolution on `["Chr", "StartPos", "EndPos", "Build"]` -/

/-- C6 counterexample: the chromosome search substring is `"chrom"`
(lift.py line 93), and `"Chr"` lowercased is `"chr"`, which does not
contain `"chrom"` — so the claimed table does *not* resolve a
chromosome column. -/
theorem c6_counterexample :
    _match_column_str "chrom" ["Chr", "StartPos", "EndPos", "Build"] = none := by
  decide

/-- C6 (amended): on `["Chr", "StartPos", "EndPos", "Build"]` the
start, end and build columns resolve by case-insensitive substring
match but the chromosome column does not (the searched substring is
`"chrom"`, not `"chr"`); for any table with no column matching
`"end"`, the resolved end column falls back to the start column, and
since `bed_df[start_pos] -= 1` (line 194) decrements every column
labelled with the start name, the generated interval records carry the
decremented start cell in both coordinate fields (end = start in the
written bed, i.e. the original value minus 1). -/
theorem c6_column_resolution_amended :
    (_match_column_str "chrom" ["Chr", "StartPos", "EndPos", "Build"] = none) ∧
    (_match_column_str "start" ["Chr", "StartPos", "EndPos", "Build"] =
      some "StartPos") ∧
    (_match_column_str "end" ["Chr", "StartPos", "EndPos", "Build"] =
      some "EndPos") ∧
    (_match_column_str "build" ["Chr", "StartPos", "EndPos", "Build"] =
      some "Build") ∧
    (∀ cols : List String, _match_column_str "end" cols = none →
      resolvedEnd cols = _match_column_str "start" cols) ∧
    (∀ (df : DataFrame) (chr_col start_col : String)
        (recs : List BedRec),
      _make_bed chr_col start_col start_col df = Except.ok recs →
      ∀ rec ∈ recs, rec.stop = Value.int rec.start) := by
  refine ⟨by decide, by decide, by decide, by decide, ?_, ?_⟩
  · intro cols h
    unfold resolvedEnd
    rw [h]
    rfl
  · intro df chr_col start_col recs h rec hrec
    unfold _make_bed at h
    split at h
    · have hf := mapM_ok_iff.mp h
      obtain ⟨p, _, hp⟩ := forall₂_mem_right hf rec hrec
      split at hp
      · rename_i s hcell
        cases hp
        simp
      · cases hp
      · cases hp
    · cases h

/-- Witness for C6 (amended) at concrete inputs. -/
theorem c6_witness :
    (resolvedEnd ["Chromosome", "StartPos"] =
      _match_column_str "start" ["Chromosome", "StartPos"]) ∧
    (∀ rec ∈ [({ chrom := Value.str "chr1", start := 99,
                 stop := Value.int 99, ind := 0 } : BedRec)],
      rec.stop = Value.int rec.start) :=
  ⟨c6_column_resolution_amended.2.2.2.2.1 ["Chromosome", "StartPos"]
      (by decide),
   c6_column_resolution_amended.2.2.2.2.2 dfBad2 "Chromosome" "StartPos" _
      (by decide)⟩

/-! ## Claim C4: exit status of the external tool -/

theorem liftResolved_result_congr {t1 t2 : ExtTool}
    (hmap : ∀ chain recs, (t1 chain recs).mapped = (t2 chain recs).mapped)
    (df : DataFrame) (keep_orig : Bool) (chains : List String)
    (new_build_name : Option String) (keep_intermediate : Bool) :
    (liftResolved t1 df keep_orig chains new_build_name keep_intermediate).2 =
      (liftResolved t2 df keep_orig chains new_build_name
        keep_intermediate).2 := by
  unfold liftResolved
  split
  · split
    · rfl
    · rename_i chr_col start_col end_col bed0 hmb
      have hh := runHops_mapped_congr hmap chains bed0
      rw [hh]
      split
      · rfl
      · split
        · rfl
        · split
          · split
            · rfl
            · rfl
          · rfl
  · rfl

/-- C4 counterexample: with a tool stub that exits with status 1 on
its (only) hop but still writes an identity-mapped output file,
`lift_over` returns a full result — the recorded subprocess effect
shows the non-zero exit status, yet no process-execution error is
raised and a result table plus unlifted subset are produced. -/
theorem c4_counterexample :
    ((lift_over failingExitTool df3 "hg19" "grch37" false false).2).isOk
        = true ∧
    (lift_over failingExitTool df3 "hg19" "grch37" false false).1 =
      [Effect.madeBedFile, Effect.ranTool "hg19_to_GRCh37.chain" 1,
       Effect.removedFiles] := by
  constructor
  · decide
  · decide

/-- C4 (amended): the exit status of the external conversion tool is
never examined: two tools producing the same mapped output files yield
identical `lift_over` results (tables or exception) regardless of
their exit codes, so a non-zero exit status on a hop neither aborts
the call nor prevents a result. -/
theorem c4_exit_status_ignored {t1 t2 : ExtTool}
    (hmap : ∀ chain recs, (t1 chain recs).mapped = (t2 chain recs).mapped)
    (df : DataFrame) (build_in build_out : String)
    (keep_orig keep_intermediate : Bool) :
    (lift_over t1 df build_in build_out keep_orig keep_intermediate).2 =
      (lift_over t2 df build_in build_out keep_orig keep_intermediate).2 := by
  unfold lift_over
  by_cases hv : build_in ∈ VALID_BUILDS ∧ build_out ∈ VALID_BUILDS
  · rw [if_pos hv, if_pos hv]
    cases hreg : _CHAIN_LISTS (build_in, build_out) with
    | none => rfl
    | some chains =>
      exact liftResolved_result_congr hmap df keep_orig chains
        (some "GRCh37") keep_intermediate
  · rw [if_neg hv, if_neg hv]

/-- Witness for C4 (amended): `failingExitTool` (exit 1) and `idTool`
(exit 0) produce the same result on `df3`. -/
theorem c4_witness :
    (∀ chain recs, (failingExitTool chain recs).mapped =
      (idTool chain recs).mapped) ∧
    (lift_over failingExitTool df3 "hg19" "grch37" false false).2 =
      (lift_over idTool df3 "hg19" "grch37" false false).2 :=
  ⟨fun _ _ => rfl,
   c4_exit_status_ignored (fun _ _ => rfl) df3 "hg19" "grch37" false false⟩

/-! ## Success inversion of the pipeline -/

theorem resolvedEnd_inv {cols : List String} {e : String}
    (h : resolvedEnd cols = some e) :
    _match_column_str "end" cols = some e ∨
      (_match_column_str "end" cols = none ∧
       _match_column_str "start" cols = some e) := by
  unfold resolvedEnd at h
  cases he : _match_column_str "end" cols with
  | some x => rw [he] at h; cases h; exact Or.inl rfl
  | none => rw [he] at h; exact Or.inr ⟨rfl, h⟩

theorem readBedAsFrame_ok {chr_col start_col end_col : String}
    {recs : List BedRec} {nrows0 : List (Nat × Row)}
    (h : readBedAsFrame chr_col start_col end_col recs = Except.ok nrows0) :
    ([chr_col, start_col, end_col, "ind"] : List String).Nodup ∧
    nrows0 = recs.map (fun rec =>
      (rec.ind, [(chr_col, rec.chrom), (start_col, Value.int rec.start),
                 (end_col, rec.stop)])) := by
  unfold readBedAsFrame at h
  split at h
  · split at h
    · cases h
    · cases h; exact ⟨by assumption, rfl⟩
  · cases h

theorem addOneStartPos_ok_mem {ncols : List String}
    {nrows0 nrows : List (Nat × Row)}
    (h : addOneStartPos ncols nrows0 = Except.ok nrows) :
    "Start_Position" ∈ ncols := by
  unfold addOneStartPos at h
  split at h
  · assumption
  · cases h

/-- Under any pipeline success, the fuzzily-resolved start column is
the literal string `"Start_Position"`: the read-back frame's columns
are the three resolved names, the `+= 1` step demands a
`Start_Position` column among them, the chromosome column's name
contains `"chrom"` (which `"start_position"` does not), and a distinct
end column's name contains `"end"` (which `"start_position"` does not),
while a fallback end column equals the start column. -/
theorem start_col_eq_SP {df : DataFrame}
    {chr_col start_col end_col : String}
    {nrows0 nrows : List (Nat × Row)}
    (hchr : _match_column_str "chrom" df.cols = some chr_col)
    (hst : _match_column_str "start" df.cols = some start_col)
    (hend : resolvedEnd df.cols = some end_col)
    (hao : addOneStartPos [chr_col, start_col, end_col] nrows0 =
      Except.ok nrows) :
    start_col = "Start_Position" := by
  have hmem := addOneStartPos_ok_mem hao
  have hchrinf := match_col_infix hchr
  rcases List.mem_cons.mp hmem with hc | hmem
  · exfalso
    rw [← hc] at hchrinf
    revert hchrinf
    decide
  rcases List.mem_cons.mp hmem with hs | hmem
  · exact hs.symm
  rcases List.mem_cons.mp hmem with he | hmem
  · rcases resolvedEnd_inv hend with hend2 | ⟨_, hst2⟩
    · exfalso
      have hendinf := match_col_infix hend2
      rw [← he] at hendinf
      revert hendinf
      decide
    · have hse : start_col = end_col := Option.some.inj (hst.symm.trans hst2)
      exact hse.trans he.symm
  · cases hmem


/-- Inverting a successful run of the resolved pipeline into its
stage-by-stage facts. -/
theorem liftResolved_ok_inv {tool : ExtTool} {df : DataFrame}
    {keep_orig : Bool} {chains : List String}
    {new_build_name : Option String} {keep_intermediate : Bool}
    {effs : List Effect} {res unl : DataFrame}
    (h : liftResolved tool df keep_orig chains new_build_name
        keep_intermediate = (effs, Except.ok (res, unl))) :
    ∃ chr_col start_col end_col bed0 nrows0 nrows,
      _match_column_str "chrom" df.cols = some chr_col ∧
      _match_column_str "start" df.cols = some start_col ∧
      resolvedEnd df.cols = some end_col ∧
      _make_bed chr_col start_col end_col df = Except.ok bed0 ∧
      readBedAsFrame chr_col start_col end_col
        (runHops tool chains bed0).2 = Except.ok nrows0 ∧
      addOneStartPos [chr_col, start_col, end_col] nrows0 =
        Except.ok nrows ∧
      (joinLeftOrig df [chr_col, start_col, end_col] nrows).rows.length =
        df.rows.length ∧
      reconcileTail (joinLeftOrig df [chr_col, start_col, end_col] nrows)
        chr_col start_col end_col (_match_column_str "build" df.cols)
        keep_orig new_build_name = Except.ok res ∧
      unl = ⟨df.cols, unliftedOf df
        (joinLeftOrig df [chr_col, start_col, end_col] nrows).rows⟩ := by
  unfold liftResolved at h
  split at h
  · rename_i chr_col start_col end_col hchr hst hend
    split at h
    · simp at h
    · rename_i bed0 hmb
      split at h
      · simp at h
      · rename_i nrows0 hrb
        split at h
        · simp at h
        · rename_i nrows hao
          split at h
          · split at h
            · simp at h
            · rename_i res2 hrt
              rw [Prod.mk.injEq] at h
              obtain ⟨-, h2⟩ := h
              rw [Except.ok.injEq, Prod.mk.injEq] at h2
              obtain ⟨hres, hunl⟩ := h2
              subst hres
              subst hunl
              exact ⟨chr_col, start_col, end_col, bed0, nrows0, nrows,
                hchr, hst, hend, hmb, hrb, hao, by assumption, hrt, rfl⟩
          · simp at h
  · simp at h

/-! ## Claim C9: reconciliation requires the literal `Start_Position` name -/

/-- C9 counterexample: a table whose start column is `StartPos` and
which has no distinct end column fails with the duplicate-names
`ValueError` from `read_csv` — not with an attribute error — so the
claim's universal "fails with an attribute error" does not hold for
every table with a differently-named start column. -/
theorem c9_counterexample :
    (_match_column_str "start" dfBad2.cols = some "StartPos") ∧
    (_lift_with_chains idTool dfBad2 false (some [_CHAIN_HG19_37])
        (some "GRCh37") false).2 = Except.error LiftError.valueError := by
  constructor
  · decide
  · decide

/-- C9 (amended): the pipeline returns a result only when the
fuzzy-matched start column is named exactly `Start_Position` — the
`+= 1` adjustment accesses that attribute literally — and a table with
a differently-named start column fails instead of returning a result,
with an `AttributeError` when it reaches the read-back step (distinct
end column; other shapes can fail earlier with other exceptions). -/
theorem c9_start_position_literal :
    (∀ (tool : ExtTool) (df : DataFrame) (keep_orig : Bool)
        (chain_list : Option (List String)) (new_build_name : Option String)
        (keep_intermediate : Bool) (effs : List Effect) (res unl : DataFrame),
      _lift_with_chains tool df keep_orig chain_list new_build_name
          keep_intermediate = (effs, Except.ok (res, unl)) →
      _match_column_str "start" df.cols = some "Start_Position") ∧
    (_lift_with_chains idTool dfBad false (some [_CHAIN_HG19_37])
        (some "GRCh37") false).2 = Except.error LiftError.attributeError := by
  constructor
  · intro tool df keep_orig chain_list new_build_name keep_intermediate
      effs res unl h
    cases chain_list with
    | none => unfold _lift_with_chains at h; simp at h
    | some chains =>
      unfold _lift_with_chains at h
      obtain ⟨chr_col, start_col, end_col, bed0, nrows0, nrows,
        hchr, hst, hend, _, hrb, hao, _, _, _⟩ := liftResolved_ok_inv h
      rw [hst, start_col_eq_SP hchr hst hend hao]
  · decide

/-- Witness for C9 (amended) at a concrete successful run. -/
theorem c9_witness :
    _match_column_str "start" df3.cols = some "Start_Position" :=
  c9_start_position_literal.1 idTool df3 false (some [_CHAIN_HG19_37])
    (some "GRCh37") false
    [Effect.madeBedFile, Effect.ranTool "hg19_to_GRCh37.chain" 0,
     Effect.removedFiles]
    { cols := ["Chromosome_orig", "Start_Position_orig",
               "End_Position_orig", "Chromosome", "Start_Position",
               "End_Position"]
    , rows := [(0, [("Chromosome_orig", Value.str "chr1"),
                    ("Start_Position_orig", Value.int 100),
                    ("End_Position_orig", Value.int 200),
                    ("Chromosome", Value.str "chr1"),
                    ("Start_Position", Value.int 100),
                    ("End_Position", Value.int 200)])] }
    { cols := ["Chromosome", "Start_Position", "End_Position"]
    , rows := [] }
    (by decide)

/-! ## Reconciliation-stage inversion -/

theorem dropnaStartEnd_ok {df2 : DataFrame} {start_col end_col : String}
    {dfA : DataFrame}
    (h : dropnaStartEnd df2 start_col end_col = Except.ok dfA) :
    dfA = { cols := df2.cols
          , rows := df2.rows.filter (fun q =>
              ((getCell q.2 start_col).getD Value.null) != Value.null
              && ((getCell q.2 end_col).getD Value.null) != Value.null) } := by
  unfold dropnaStartEnd at h
  split at h
  · cases h; rfl
  · cases h

theorem astypeIntCol_ok {df : DataFrame} {c : String} {df' : DataFrame}
    (h : astypeIntCol df c = Except.ok df') :
    df'.cols = df.cols ∧
    List.Forall₂ (fun p q => (q : Nat × Row).1 = (p : Nat × Row).1 ∧
      mapFirstCell castIntValue c p.2 = Except.ok q.2) df.rows df'.rows := by
  unfold astypeIntCol at h
  split at h
  · split at h
    · rename_i rs hmm
      cases h
      refine ⟨rfl, ?_⟩
      have hf := mapM_ok_iff.mp hmm
      refine hf.imp ?_
      intro p q hpq
      cases hmf : mapFirstCell castIntValue c p.2 with
      | error e => rw [hmf] at hpq; cases hpq
      | ok r => rw [hmf] at hpq; cases hpq; exact ⟨rfl, rfl⟩
    · cases h
  · cases h

theorem reconcileTail_ok_nobuild {df2 : DataFrame}
    {chr_col start_col end_col : String} {keep_orig : Bool}
    {new_build_name : Option String} {res : DataFrame}
    (h : reconcileTail df2 chr_col start_col end_col none keep_orig
        new_build_name = Except.ok res) :
    ∃ dfA dfB, dropnaStartEnd df2 start_col end_col = Except.ok dfA ∧
      astypeIntCol dfA start_col = Except.ok dfB ∧
      astypeIntCol dfB end_col = Except.ok res := by
  unfold reconcileTail at h
  split at h
  · cases h
  · rename_i dfA hd
    split at h
    · cases h
    · rename_i dfB ha
      split at h
      · cases h
      · rename_i dfC hb
        cases h
        exact ⟨dfA, dfB, hd, ha, hb⟩

theorem end_col_mem {cols : List String} {end_col : String}
    (hend : resolvedEnd cols = some end_col) : end_col ∈ cols := by
  rcases resolvedEnd_inv hend with h | ⟨-, h⟩ <;> exact match_col_mem h

/-! ## Claim C10: `_orig` columns retained when no build column exists -/

/-- C10: when the input table has no build-label column, the
`_orig`-suffixed copies of the chromosome/start/end columns created by
the left join's suffixing are retained in the returned result table
even with `keep_orig = false`, because the drop of those columns only
happens inside the branch taken when a build column was found. -/
theorem c10_orig_columns_retained {tool : ExtTool} {df : DataFrame}
    {build_in build_out : String} {keep_intermediate : Bool}
    {effs : List Effect} {res unl : DataFrame}
    {chr_col start_col end_col : String}
    (hok : lift_over tool df build_in build_out false keep_intermediate =
      (effs, Except.ok (res, unl)))
    (hbuild : _match_column_str "build" df.cols = none)
    (hchr : _match_column_str "chrom" df.cols = some chr_col)
    (hst : _match_column_str "start" df.cols = some start_col)
    (hend : resolvedEnd df.cols = some end_col) :
    chr_col ++ "_orig" ∈ res.cols ∧ start_col ++ "_orig" ∈ res.cols ∧
      end_col ++ "_orig" ∈ res.cols := by
  unfold lift_over at hok
  split at hok
  · split at hok
    · simp at hok
    · unfold _lift_with_chains at hok
      obtain ⟨c2, s2, e2, bed0, nrows0, nrows, hchr2, hst2, hend2, hmb,
        hrb, hao, hlen, hrt, hunl⟩ := liftResolved_ok_inv hok
      have hc : c2 = chr_col := Option.some.inj (hchr2.symm.trans hchr)
      have hs : s2 = start_col := Option.some.inj (hst2.symm.trans hst)
      have he : e2 = end_col := Option.some.inj (hend2.symm.trans hend)
      rw [← hc, ← hs, ← he]
      rw [hbuild] at hrt
      obtain ⟨dfA, dfB, hd, ha, hb⟩ := reconcileTail_ok_nobuild hrt
      have hcolsA := congrArg DataFrame.cols (dropnaStartEnd_ok hd)
      have hcolsB := (astypeIntCol_ok ha).1
      have hcolsC := (astypeIntCol_ok hb).1
      have hrescols : res.cols =
          (joinLeftOrig df [c2, s2, e2] nrows).cols := by
        rw [hcolsC, hcolsB, hcolsA]
      have hmemorig : ∀ c, c ∈ df.cols →
          c ∈ ([c2, s2, e2] : List String) →
          c ++ "_orig" ∈ res.cols := by
        intro c hcdf hcn
        rw [hrescols]
        unfold joinLeftOrig
        refine List.mem_append_left _ ?_
        refine List.mem_map.mpr ⟨c, hcdf, ?_⟩
        unfold renOrig
        rw [if_pos hcn]
      exact ⟨hmemorig c2 (match_col_mem hchr2) (by simp),
        hmemorig s2 (match_col_mem hst2) (by simp),
        hmemorig e2 (end_col_mem hend2) (by simp)⟩
  · simp at hok

/-- Witness for C10 at a concrete run without a build column. -/
theorem c10_witness :
    "Chromosome_orig" ∈
      (["Chromosome_orig", "Start_Position_orig", "End_Position_orig",
        "Chromosome", "Start_Position", "End_Position"] : List String) ∧
    "Start_Position_orig" ∈
      (["Chromosome_orig", "Start_Position_orig", "End_Position_orig",
        "Chromosome", "Start_Position", "End_Position"] : List String) ∧
    "End_Position_orig" ∈
      (["Chromosome_orig", "Start_Position_orig", "End_Position_orig",
        "Chromosome", "Start_Position", "End_Position"] : List String) :=
  @c10_orig_columns_retained idTool df3 "hg19" "grch37" false
    [Effect.madeBedFile, Effect.ranTool "hg19_to_GRCh37.chain" 0,
     Effect.removedFiles]
    { cols := ["Chromosome_orig", "Start_Position_orig",
               "End_Position_orig", "Chromosome", "Start_Position",
               "End_Position"]
    , rows := [(0, [("Chromosome_orig", Value.str "chr1"),
                    ("Start_Position_orig", Value.int 100),
                    ("End_Position_orig", Value.int 200),
                    ("Chromosome", Value.str "chr1"),
                    ("Start_Position", Value.int 100),
                    ("End_Position", Value.int 200)])] }
    { cols := ["Chromosome", "Start_Position", "End_Position"]
    , rows := [] }
    "Chromosome" "Start_Position" "End_Position"
    (by decide) (by decide) (by decide) (by decide) (by decide)

/-! ## Cell-lookup tracking through the row transforms -/

theorem getCell_eq_none_iff {r : Row} {c : String} :
    getCell r c = none ↔ ∀ cell ∈ r, cell.1 ≠ c := by
  unfold getCell
  rw [Option.map_eq_none', List.find?_eq_none]
  constructor
  · intro h cell hc
    have := h cell hc
    simpa using this
  · intro h cell hc
    simpa using h cell hc

theorem getCell_append_of_none {r1 r2 : Row} {c : String}
    (h : getCell r1 c = none) :
    getCell (r1 ++ r2) c = getCell r2 c := by
  unfold getCell at h ⊢
  rw [List.find?_append]
  rw [Option.map_eq_none'] at h
  rw [h, Option.none_or]

theorem getCell_setCellRow_self (c : String) (v : Value) :
    ∀ r : Row, getCell (setCellRow c v r) c = some v := by
  intro r
  induction r with
  | nil => simp [setCellRow, getCell, List.find?]
  | cons cell rest ih =>
    unfold setCellRow
    by_cases hc : cell.1 = c
    · rw [if_pos hc]
      simp [getCell, List.find?]
    · rw [if_neg hc]
      unfold getCell at ih ⊢
      rw [List.find?_cons]
      have : (fun p => p.1 == c) (cell.1, cell.2) = false := by
        simpa using hc
      simp only [this]
      exact ih

theorem getCell_setCellRow_other {c c2 : String} (v : Value)
    (hne : c2 ≠ c) :
    ∀ r : Row, getCell (setCellRow c v r) c2 = getCell r c2 := by
  intro r
  induction r with
  | nil =>
    simp only [setCellRow, getCell, List.find?]
    have : (c == c2) = false := by simpa using fun h => hne h.symm
    simp [this]
  | cons cell rest ih =>
    unfold setCellRow
    by_cases hc : cell.1 = c
    · rw [if_pos hc]
      unfold getCell
      rw [List.find?_cons, List.find?_cons]
      have h1 : ((c, v).1 == c2) = false := by simpa using fun h => hne h.symm
      have h2 : (cell.1 == c2) = false := by
        simp only [beq_eq_false_iff_ne, ne_eq]
        intro h
        exact hne (h.symm.trans hc)
      simp only [h1, h2]
    · rw [if_neg hc]
      unfold getCell at ih ⊢
      rw [List.find?_cons, List.find?_cons]
      cases hcc : (cell.1 == c2) with
      | true => rfl
      | false => simpa [hcc] using ih

theorem getCell_renameCellRow_other {old new c : String}
    (h1 : c ≠ old) (h2 : c ≠ new) :
    ∀ r : Row, getCell (renameCellRow old new r) c = getCell r c := by
  intro r
  induction r with
  | nil => rfl
  | cons cell rest ih =>
    unfold renameCellRow at ih ⊢
    rw [List.map_cons]
    unfold getCell at ih ⊢
    rw [List.find?_cons, List.find?_cons]
    by_cases hc : cell.1 = old
    · rw [if_pos hc]
      have ha : ((new, cell.2).1 == c) = false := by
        simpa using fun h => h2 h.symm
      have hb : (cell.1 == c) = false := by
        simp only [beq_eq_false_iff_ne, ne_eq]
        intro h
        exact h1 (h.symm.trans hc)
      simp only [ha, hb]
      exact ih
    · rw [if_neg hc]
      cases hcc : (cell.1 == c) with
      | true => rfl
      | false => simpa [hcc] using ih

theorem getCell_filter_not_mem {cs : List String} {c : String}
    (h : c ∉ cs) :
    ∀ r : Row,
      getCell (r.filter (fun cell => decide (cell.1 ∉ cs))) c =
        getCell r c := by
  intro r
  induction r with
  | nil => rfl
  | cons cell rest ih =>
    rw [List.filter_cons]
    by_cases hc : cell.1 ∈ cs
    · have hd : (decide (cell.1 ∉ cs)) = false := by simpa using hc
      rw [hd]
      simp only [Bool.false_eq_true, if_false]
      unfold getCell at ih ⊢
      rw [List.find?_cons]
      have : (cell.1 == c) = false := by
        simp only [beq_eq_false_iff_ne, ne_eq]
        intro he
        exact h (he ▸ hc)
      simp only [this]
      exact ih
    · have hd : (decide (cell.1 ∉ cs)) = true := by simpa using hc
      rw [hd]
      simp only [if_true]
      unfold getCell at ih ⊢
      rw [List.find?_cons, List.find?_cons]
      cases hcc : (cell.1 == c) with
      | true => rfl
      | false => simpa [hcc] using ih

theorem mapFirstCell_castInt_ok {c : String} :
    ∀ {r r' : Row}, mapFirstCell castIntValue c r = Except.ok r' →
      r' = r ∧ (∀ v, getCell r c = some v → ∃ k, v = Value.int k) := by
  intro r
  induction r with
  | nil =>
    intro r' h
    cases h
    exact ⟨rfl, by intro v hv; cases hv⟩
  | cons cell rest ih =>
    intro r' h
    unfold mapFirstCell at h
    by_cases hc : cell.1 = c
    · rw [if_pos hc] at h
      cases hv : cell.2 with
      | int k =>
        rw [hv] at h
        simp only [castIntValue] at h
        cases h
        constructor
        · rw [← hc, ← hv]
        · intro v hgv
          refine ⟨k, ?_⟩
          have hcell : cell = (c, Value.int k) := by rw [← hc, ← hv]
          rw [hcell] at hgv
          simp [getCell] at hgv
          exact hgv.symm
      | str s => rw [hv] at h; simp only [castIntValue] at h; cases h
      | null => rw [hv] at h; simp only [castIntValue] at h; cases h
    · rw [if_neg hc] at h
      cases hm : mapFirstCell castIntValue c rest with
      | error e => rw [hm] at h; cases h
      | ok rest2 =>
        rw [hm] at h
        cases h
        obtain ⟨hr, hv⟩ := ih hm
        subst hr
        refine ⟨rfl, ?_⟩
        intro v hgv
        unfold getCell at hgv hv
        rw [List.find?_cons] at hgv
        have : (cell.1 == c) = false := by simpa using hc
        simp only [this] at hgv
        exact hv v hgv

/-! ## Join-block structure -/

theorem nodup_keys_inj {α β : Type} {l : List (α × β)}
    (hnodup : (l.map Prod.fst).Nodup) {p q : α × β}
    (hp : p ∈ l) (hq : q ∈ l) (hfst : p.1 = q.1) : p = q := by
  induction l with
  | nil => cases hp
  | cons x t ih =>
    rw [List.map_cons, List.nodup_cons] at hnodup
    rcases List.mem_cons.mp hp with rfl | hp2 <;>
      rcases List.mem_cons.mp hq with h | hq2
    · exact h.symm ▸ rfl
    · exfalso
      apply hnodup.1
      rw [hfst]
      exact List.mem_map_of_mem Prod.fst hq2
    · exfalso
      apply hnodup.1
      rw [h] at hfst
      rw [← hfst]
      exact List.mem_map_of_mem Prod.fst hp2
    · exact ih hnodup.2 hp2 hq2

theorem joinRowBlock_length_pos (ncols : List String)
    (nrows : List (Nat × Row)) (p : Nat × Row) :
    1 ≤ (joinRowBlock ncols nrows p).length := by
  unfold joinRowBlock
  split
  · simp
  · simp only [List.length_map]
    rename_i hne
    exact List.length_pos.mpr (fun h => hne h)

theorem joinRowBlock_fst (ncols : List String) (nrows : List (Nat × Row))
    (p : Nat × Row) : ∀ q ∈ joinRowBlock ncols nrows p, q.1 = p.1 := by
  intro q hq
  unfold joinRowBlock at hq
  split at hq
  · rcases List.mem_cons.mp hq with rfl | h
    · rfl
    · cases h
  · rw [List.mem_map] at hq
    obtain ⟨x, _, rfl⟩ := hq
    rfl

theorem flatMap_find?_single {β : Type} [BEq β] {l : List (Nat × β)}
    {f : Nat × β → List (Nat × β)} {p jr : Nat × β}
    (hfst : ∀ x ∈ l, ∀ q ∈ f x, q.1 = x.1)
    (hnodup : (l.map Prod.fst).Nodup)
    (hp : p ∈ l) (hjr : f p = [jr]) :
    (l.flatMap f).find? (fun q => q.1 == p.1) = some jr := by
  induction l with
  | nil => cases hp
  | cons x t ih =>
    rw [List.map_cons, List.nodup_cons] at hnodup
    rw [List.flatMap_cons, List.find?_append]
    rcases List.mem_cons.mp hp with rfl | hp2
    · rw [hjr]
      have hj1 : jr.1 = p.1 := hfst p (List.mem_cons_self _ _) jr
        (by rw [hjr]; exact List.mem_cons_self _ _)
      have : (List.find? (fun q => q.1 == p.1) [jr]) = some jr := by
        simp [List.find?, hj1]
      rw [this]
      rfl
    · have hx : List.find? (fun q => q.1 == p.1) (f x) = none := by
        rw [List.find?_eq_none]
        intro q hq
        have hq1 : q.1 = x.1 := hfst x (List.mem_cons_self _ _) q hq
        have hne : x.1 ≠ p.1 := by
          intro he
          apply hnodup.1
          rw [he]
          exact List.mem_map_of_mem Prod.fst hp2
        simp only [hq1]
        simpa using fun h2 => hne h2
      rw [hx, Option.none_or]
      exact ih (fun y hy => hfst y (List.mem_cons_of_mem _ hy)) hnodup.2 hp2

/-- Identity external tool: the hop pipeline leaves the records
unchanged. -/
theorem runHops_id {tool : ExtTool}
    (htool : ∀ chain recs, (tool chain recs).mapped = recs) :
    ∀ (chains : List String) (bed : List BedRec),
      (runHops tool chains bed).2 = bed := by
  intro chains
  induction chains with
  | nil => intro bed; rfl
  | cons c cs ih =>
    intro bed
    simp only [runHops]
    rw [htool c bed, ih bed]

/-! ## Column-name exclusions under the `_orig` suffixing -/

theorem renOrig_ne_SP (ncols : List String)
    (hSP : "Start_Position" ∈ ncols) :
    ∀ x, renOrig ncols x ≠ "Start_Position" := by
  intro x
  unfold renOrig
  by_cases hx : x ∈ ncols
  · rw [if_pos hx]
    exact start_position_not_orig x
  · rw [if_neg hx]
    intro h
    exact hx (h ▸ hSP)

theorem getCell_lrow_none {ncols : List String} {r : Row} {c : String}
    (h : ∀ x, renOrig ncols x ≠ c) :
    getCell (r.map (fun cell => (renOrig ncols cell.1, cell.2))) c = none := by
  rw [getCell_eq_none_iff]
  intro cell hc
  rw [List.mem_map] at hc
  obtain ⟨cell0, -, rfl⟩ := hc
  exact h cell0.1

theorem build_ne_chr_orig {cols : List String} {b chr : String}
    (hb : _match_column_str "build" cols = some b)
    (hc : _match_column_str "chrom" cols = some chr) :
    b ≠ chr ++ "_orig" := by
  intro h
  have hbinf := match_col_infix hb
  rw [h] at hbinf
  have hbc : "build".data <:+: (lowerStr chr).data := build_infix_of_orig hbinf
  have hcinf := match_col_infix hc
  have hcb : "chrom".data <:+: (lowerStr b).data := by
    rw [h]
    exact infix_lower_append_left hcinf
  unfold _match_column_str at hb hc
  have heq : chr = b :=
    find?_both hc hb (strContains_iff.mpr hbc) (strContains_iff.mpr hcb)
  rw [heq] at h
  exact append_orig_ne b h.symm

theorem build_ne_end_orig {cols : List String} {b e : String}
    (hb : _match_column_str "build" cols = some b)
    (he : _match_column_str "end" cols = some e) :
    b ≠ e ++ "_orig" := by
  intro h
  have hbinf := match_col_infix hb
  rw [h] at hbinf
  have hbe : "build".data <:+: (lowerStr e).data := build_infix_of_orig hbinf
  have heinf := match_col_infix he
  have heb : "end".data <:+: (lowerStr b).data := by
    rw [h]
    exact infix_lower_append_left heinf
  unfold _match_column_str at hb he
  have heq : e = b :=
    find?_both he hb (strContains_iff.mpr hbe) (strContains_iff.mpr heb)
  rw [heq] at h
  exact append_orig_ne b h.symm

theorem end_ne_chr_orig {cols : List String} {chr e : String}
    (hc : _match_column_str "chrom" cols = some chr)
    (he : _match_column_str "end" cols = some e) :
    e ≠ chr ++ "_orig" := by
  intro h
  have heinf := match_col_infix he
  rw [h] at heinf
  have hec : "end".data <:+: (lowerStr chr).data := end_infix_of_orig heinf
  have hcinf := match_col_infix hc
  have hce : "chrom".data <:+: (lowerStr e).data := by
    rw [h]
    exact infix_lower_append_left hcinf
  unfold _match_column_str at hc he
  have heq : chr = e :=
    find?_both hc he (strContains_iff.mpr hec) (strContains_iff.mpr hce)
  rw [heq] at h
  exact append_orig_ne e h.symm

theorem build_ne_SP {cols : List String} {b : String}
    (hb : _match_column_str "build" cols = some b) :
    b ≠ "Start_Position" := by
  intro h
  have hbinf := match_col_infix hb
  rw [h] at hbinf
  revert hbinf
  decide

theorem build_ne_SP_orig {cols : List String} {b : String}
    (hb : _match_column_str "build" cols = some b) :
    b ≠ "Start_Position" ++ "_orig" := by
  intro h
  have hbinf := match_col_infix hb
  rw [h] at hbinf
  revert hbinf
  decide

theorem end_ne_SP_orig {cols : List String} {e : String}
    (he : _match_column_str "end" cols = some e) :
    e ≠ "Start_Position" ++ "_orig" := by
  intro h
  have heinf := match_col_infix he
  rw [h] at heinf
  revert heinf
  decide

/-! ## Stage-output shapes -/

theorem forall₂_right_eq {α β : Type} {g : α → β} :
    ∀ {l : List α} {l' : List β},
      List.Forall₂ (fun a b => b = g a) l l' → l' = l.map g := by
  intro l
  induction l with
  | nil => intro l' h; cases h; rfl
  | cons a t ih =>
    intro l' h
    cases h with
    | cons hab ht => rw [List.map_cons, ← ih ht, hab]

theorem make_bed_ok_forall₂ {chrom start_pos end_pos : String}
    {df : DataFrame} {recs : List BedRec}
    (h : _make_bed chrom start_pos end_pos df = Except.ok recs) :
    List.Forall₂ (fun p rec => (rec : BedRec).ind = (p : Nat × Row).1 ∧
      rec.chrom = (getCell p.2 chrom).getD Value.null ∧
      (if end_pos = start_pos then rec.stop = Value.int rec.start
       else rec.stop = (getCell p.2 end_pos).getD Value.null) ∧
      ∃ S, getCell p.2 start_pos = some (Value.int S) ∧ rec.start = S - 1)
      df.rows recs := by
  unfold _make_bed at h
  split at h
  · refine (mapM_ok_iff.mp h).imp ?_
    intro p rec hpr
    cases hg : getCell p.2 start_pos with
    | none => rw [hg] at hpr; cases hpr
    | some v =>
      cases v with
      | int S =>
        rw [hg] at hpr
        cases hpr
        refine ⟨rfl, rfl, ?_, S, rfl, rfl⟩
        by_cases he : end_pos = start_pos
        · rw [if_pos he]
          show (if end_pos = start_pos then Value.int (S - 1) else _) = _
          rw [if_pos he]
        · rw [if_neg he]
          show (if end_pos = start_pos then Value.int (S - 1) else _) = _
          rw [if_neg he]
      | str s => rw [hg] at hpr; cases hpr
      | null => rw [hg] at hpr; cases hpr
  · cases h

/-- The frame read back from the final bed file, after the
`Start_Position += 1` adjustment: one row per record, with the start
slot incremented. -/
theorem nrows_structure {chr_col end_col : String} {recs : List BedRec}
    {nrows0 nrows : List (Nat × Row)}
    (hchr_ne : chr_col ≠ "Start_Position")
    (hrb : readBedAsFrame chr_col "Start_Position" end_col recs =
      Except.ok nrows0)
    (hao : addOneStartPos [chr_col, "Start_Position", end_col] nrows0 =
      Except.ok nrows) :
    nrows = recs.map (fun rec => (rec.ind,
      [(chr_col, rec.chrom),
       ("Start_Position", Value.int (rec.start + 1)),
       (end_col, rec.stop)])) := by
  obtain ⟨-, hn0⟩ := readBedAsFrame_ok hrb
  subst hn0
  unfold addOneStartPos at hao
  rw [if_pos (by simp)] at hao
  have hf := mapM_ok_iff.mp hao
  refine forall₂_map_eq ?_ hf
  intro rec b hb
  have hmap : mapFirstCell addOneValue "Start_Position"
      [(chr_col, rec.chrom), ("Start_Position", Value.int rec.start),
       (end_col, rec.stop)] =
      Except.ok [(chr_col, rec.chrom),
                 ("Start_Position", Value.int (rec.start + 1)),
                 (end_col, rec.stop)] := by
    unfold mapFirstCell
    rw [if_neg hchr_ne]
    unfold mapFirstCell
    rw [if_pos rfl]
    rfl
  rw [hmap] at hb
  cases hb
  rfl

theorem reconcileTail_ok_build {df2 : DataFrame}
    {chr_col start_col end_col b : String} {keep_orig : Bool}
    {res : DataFrame}
    (h : reconcileTail df2 chr_col start_col end_col (some b) keep_orig
        (some "GRCh37") = Except.ok res) :
    ∃ dfA dfB dfC,
      dropnaStartEnd df2 start_col end_col = Except.ok dfA ∧
      astypeIntCol dfA start_col = Except.ok dfB ∧
      astypeIntCol dfB end_col = Except.ok dfC ∧
      ((keep_orig = true ∧
        res = setCol (renameCol dfC b (b ++ "_orig")) b
          (Value.str "GRCh37")) ∨
       (keep_orig = false ∧
        dropCols (setCol dfC b (Value.str "GRCh37"))
          [chr_col ++ "_orig", start_col ++ "_orig", end_col ++ "_orig"] =
          Except.ok res)) := by
  unfold reconcileTail at h
  split at h
  · cases h
  · rename_i dfA hd
    split at h
    · cases h
    · rename_i dfB ha
      split at h
      · cases h
      · rename_i dfC hb2
        refine ⟨dfA, dfB, dfC, hd, ha, hb2, ?_⟩
        cases keep_orig with
        | true =>
          left
          refine ⟨rfl, ?_⟩
          simp only [truthyStr, Option.getD_some] at h
          simp at h
          exact h.symm
        | false =>
          right
          refine ⟨rfl, ?_⟩
          simp only [truthyStr, Option.getD_some] at h
          simp at h
          exact h

theorem dropCols_ok {df : DataFrame} {cs : List String} {df' : DataFrame}
    (h : dropCols df cs = Except.ok df') :
    df' = { cols := df.cols.filter (fun c => decide (c ∉ cs))
          , rows := df.rows.map (fun p =>
              (p.1, p.2.filter (fun cell => decide (cell.1 ∉ cs)))) } := by
  unfold dropCols at h
  split at h
  · cases h; rfl
  · cases h

/-- In this embedding integer cells pass `astype(int)` unchanged, so a
successful cast leaves the frame intact and certifies that every
present cell of the column is an integer. -/
theorem astypeIntCol_id {df : DataFrame} {c : String} {df' : DataFrame}
    (h : astypeIntCol df c = Except.ok df') :
    df' = df ∧ (∀ p ∈ df.rows, ∀ v, getCell p.2 c = some v →
      ∃ k, v = Value.int k) := by
  obtain ⟨hcols, hf⟩ := astypeIntCol_ok h
  have hf2 : List.Forall₂ (fun p q => (q : Nat × Row) = (p : Nat × Row))
      df.rows df'.rows := by
    refine hf.imp ?_
    intro p q hpq
    obtain ⟨h1, h2⟩ := hpq
    obtain ⟨h3, -⟩ := mapFirstCell_castInt_ok h2
    calc q = (q.1, q.2) := rfl
    _ = (p.1, p.2) := by rw [h1, h3]
    _ = p := rfl
  have hrows : df'.rows = df.rows := by
    have := forall₂_right_eq (g := fun p => p) hf2
    simpa using this
  constructor
  · calc df' = ⟨df'.cols, df'.rows⟩ := rfl
    _ = ⟨df.cols, df.rows⟩ := by rw [hcols, hrows]
    _ = df := rfl
  · intro p hp v hv
    obtain ⟨q, _, -, hm⟩ := forall₂_mem_left hf p hp
    obtain ⟨-, hint⟩ := mapFirstCell_castInt_ok hm
    exact hint v hv

/-! ## Claim C5: the post-lift build label is hardcoded to GRCh37 -/

/-- C5: whenever `lift_over` returns a result on a table with a
build-label column, every row of the result table carries the build
label `"GRCh37"` — regardless of which valid target build was
requested, because `lift_over` passes the literal `'GRCh37'` as the
new build name (lift.py line 60). -/
theorem c5_build_label_hardcoded {tool : ExtTool} {df : DataFrame}
    {build_in build_out : String} {keep_orig keep_intermediate : Bool}
    {effs : List Effect} {res unl : DataFrame} {b : String}
    (hok : lift_over tool df build_in build_out keep_orig
      keep_intermediate = (effs, Except.ok (res, unl)))
    (hb : _match_column_str "build" df.cols = some b) :
    ∀ q ∈ res.rows, getCell q.2 b = some (Value.str "GRCh37") := by
  unfold lift_over at hok
  split at hok
  · split at hok
    · simp at hok
    · unfold _lift_with_chains at hok
      obtain ⟨chr_col, s, e, bed0, nrows0, nrows, hchr, hst, hend, hmb,
        hrb, hao, hlen, hrt, hunl⟩ := liftResolved_ok_inv hok
      have hsp := start_col_eq_SP hchr hst hend hao
      subst hsp
      rw [hb] at hrt
      obtain ⟨dfA, dfB, dfC, hd, ha, hb2, hbranch⟩ :=
        reconcileTail_ok_build hrt
      have hnodup := (readBedAsFrame_ok hrb).1
      simp only [List.nodup_cons, List.mem_cons, List.mem_singleton,
        List.not_mem_nil, or_false, not_or] at hnodup
      have hendM : _match_column_str "end" df.cols = some e := by
        rcases resolvedEnd_inv hend with h2 | ⟨-, h2⟩
        · exact h2
        · exfalso
          exact hnodup.2.1.1
            (Option.some.inj (hst.symm.trans h2))
      rcases hbranch with ⟨-, hres⟩ | ⟨-, hres⟩
      · subst hres
        intro q hq
        unfold setCol at hq
        simp only [List.mem_map] at hq
        obtain ⟨p, -, rfl⟩ := hq
        exact getCell_setCellRow_self b (Value.str "GRCh37") p.2
      · have hdrop := dropCols_ok hres
        subst hdrop
        intro q hq
        simp only [List.mem_map] at hq
        obtain ⟨p, hp, rfl⟩ := hq
        have hbn : b ∉ ([chr_col ++ "_orig", "Start_Position" ++ "_orig",
            e ++ "_orig"] : List String) := by
          simp only [List.mem_cons, List.mem_singleton, List.not_mem_nil,
            or_false, not_or]
          exact ⟨build_ne_chr_orig hb hchr, build_ne_SP_orig hb,
            build_ne_end_orig hb hendM⟩
        rw [getCell_filter_not_mem hbn]
        unfold setCol at hp
        simp only [List.mem_map] at hp
        obtain ⟨p2, -, rfl⟩ := hp
        exact getCell_setCellRow_self b (Value.str "GRCh37") p2.2
  · simp at hok

/-- Witness for C5 at a concrete run on a table with a `Build`
column, target build `grch37`: the returned row's build label. -/
theorem c5_witness :
    getCell [("Build", Value.str "GRCh37"),
             ("Chromosome", Value.str "chr1"),
             ("Start_Position", Value.int 100),
             ("End_Position", Value.int 200)] "Build" =
      some (Value.str "GRCh37") :=
  @c5_build_label_hardcoded idTool dfB "hg19" "grch37" false false
    [Effect.madeBedFile, Effect.ranTool "hg19_to_GRCh37.chain" 0,
     Effect.removedFiles]
    { cols := ["Build", "Chromosome", "Start_Position", "End_Position"]
    , rows := [(0, [("Build", Value.str "GRCh37"),
                    ("Chromosome", Value.str "chr1"),
                    ("Start_Position", Value.int 100),
                    ("End_Position", Value.int 200)])] }
    { cols := ["Chromosome", "Start_Position", "End_Position", "Build"]
    , rows := [] }
    "Build" (by decide) (by decide)
    (0, [("Build", Value.str "GRCh37"),
         ("Chromosome", Value.str "chr1"),
         ("Start_Position", Value.int 100),
         ("End_Position", Value.int 200)])
    (by decide)

/-! ## Claim C2: the -1/+1 start-position round trip -/

/-- C2: the extractor writes `S - 1` for a row with 1-based start `S`
(lift.py line 194), and with an external tool that performs identity
mapping, the reconciled `Start_Position` of every returned row equals
the row's original value exactly — the `+ 1` of line 120 undoes the
`- 1`. -/
theorem c2_start_round_trip :
    (∀ (chrom start_pos end_pos : String) (df : DataFrame)
        (recs : List BedRec),
      _make_bed chrom start_pos end_pos df = Except.ok recs →
      ∀ p ∈ df.rows, ∀ S : Int,
        getCell p.2 start_pos = some (Value.int S) →
        ∃ rec ∈ recs, (rec : BedRec).ind = p.1 ∧ rec.start = S - 1) ∧
    (∀ (tool : ExtTool) (df : DataFrame) (build_in build_out : String)
        (keep_orig keep_intermediate : Bool) (effs : List Effect)
        (res unl : DataFrame),
      (∀ chain recs, (tool chain recs).mapped = recs) →
      lift_over tool df build_in build_out keep_orig keep_intermediate =
        (effs, Except.ok (res, unl)) →
      ∀ q ∈ res.rows, ∃ p ∈ df.rows, (p : Nat × Row).1 = (q : Nat × Row).1 ∧
        getCell q.2 "Start_Position" = getCell p.2 "Start_Position") := by
  constructor
  · intro chrom start_pos end_pos df recs h p hp S hS
    have hf := make_bed_ok_forall₂ h
    obtain ⟨rec, hrec, hind, -, -, S2, hS2, hstart⟩ :=
      forall₂_mem_left hf p hp
    refine ⟨rec, hrec, hind, ?_⟩
    rw [hS] at hS2
    cases Option.some.inj hS2
    exact hstart
  · intro tool df build_in build_out keep_orig keep_intermediate effs
      res unl htool hok q hq
    unfold lift_over at hok
    split at hok
    · split at hok
      · simp at hok
      · unfold _lift_with_chains at hok
        obtain ⟨chr_col, s, e, bed0, nrows0, nrows, hchr, hst, hend, hmb,
          hrb, hao, hlen, hrt, hunl⟩ := liftResolved_ok_inv hok
        have hsp := start_col_eq_SP hchr hst hend hao
        subst hsp
        rw [runHops_id htool] at hrb
        have hnodup := (readBedAsFrame_ok hrb).1
        simp only [List.nodup_cons, List.mem_cons, List.mem_singleton,
          List.not_mem_nil, or_false, not_or] at hnodup
        have hchr_ne : chr_col ≠ "Start_Position" := hnodup.1.1
        have hchr_ne_e : chr_col ≠ e := hnodup.1.2.1
        have hsp_ne_e : "Start_Position" ≠ e := hnodup.2.1.1
        have hnst := nrows_structure hchr_ne hrb hao
        -- every result row comes from a kept joined row with the same
        -- Start_Position cell
        have hq2 : ∃ x ∈ (joinLeftOrig df [chr_col, "Start_Position", e]
            nrows).rows,
            ((getCell x.2 "Start_Position").getD Value.null) != Value.null
            ∧ (q : Nat × Row).1 = (x : Nat × Row).1 ∧
            getCell q.2 "Start_Position" = getCell x.2 "Start_Position" := by
          cases hbm : _match_column_str "build" df.cols with
          | none =>
            rw [hbm] at hrt
            obtain ⟨dfA, dfB, hd, ha, hb2⟩ := reconcileTail_ok_nobuild hrt
            have hAe := dropnaStartEnd_ok hd
            obtain ⟨hBe, -⟩ := astypeIntCol_id ha
            obtain ⟨hCe, -⟩ := astypeIntCol_id hb2
            rw [hCe, hBe, hAe] at hq
            simp only [List.mem_filter, Bool.and_eq_true] at hq
            exact ⟨q, hq.1, hq.2.1, rfl, rfl⟩
          | some b =>
            rw [hbm] at hrt
            obtain ⟨dfA, dfB, dfC, hd, ha, hb2, hbranch⟩ :=
              reconcileTail_ok_build hrt
            have hAe := dropnaStartEnd_ok hd
            obtain ⟨hBe, -⟩ := astypeIntCol_id ha
            obtain ⟨hCe, -⟩ := astypeIntCol_id hb2
            have hb_ne_sp : "Start_Position" ≠ b :=
              fun h2 => build_ne_SP hbm h2.symm
            have hb_ne_sporig : "Start_Position" ≠ b ++ "_orig" := by
              intro h2
              exact start_position_not_orig b h2.symm
            rcases hbranch with ⟨-, hres⟩ | ⟨-, hres⟩
            · subst hres
              unfold setCol at hq
              simp only [List.mem_map] at hq
              obtain ⟨x0, hx0, rfl⟩ := hq
              unfold renameCol at hx0
              simp only [List.mem_map] at hx0
              obtain ⟨x, hx, rfl⟩ := hx0
              rw [hCe, hBe, hAe] at hx
              simp only [List.mem_filter, Bool.and_eq_true] at hx
              refine ⟨x, hx.1, hx.2.1, rfl, ?_⟩
              rw [getCell_setCellRow_other _ hb_ne_sp,
                getCell_renameCellRow_other hb_ne_sp hb_ne_sporig]
            · have hdres := dropCols_ok hres
              subst hdres
              simp only [List.mem_map] at hq
              obtain ⟨x0, hx0, rfl⟩ := hq
              unfold setCol at hx0
              simp only [List.mem_map] at hx0
              obtain ⟨x, hx, rfl⟩ := hx0
              rw [hCe, hBe, hAe] at hx
              simp only [List.mem_filter, Bool.and_eq_true] at hx
              refine ⟨x, hx.1, hx.2.1, rfl, ?_⟩
              have hspn : "Start_Position" ∉
                  ([chr_col ++ "_orig", "Start_Position" ++ "_orig",
                    e ++ "_orig"] : List String) := by
                simp only [List.mem_cons, List.mem_singleton,
                  List.not_mem_nil, or_false, not_or]
                exact ⟨fun h2 => start_position_not_orig chr_col h2.symm,
                  fun h2 => start_position_not_orig "Start_Position" h2.symm,
                  fun h2 => start_position_not_orig e h2.symm⟩
              rw [getCell_filter_not_mem hspn,
                getCell_setCellRow_other _ hb_ne_sp]
        obtain ⟨x, hxmem, hxkeep, hqx1, hqx2⟩ := hq2
        unfold joinLeftOrig at hxmem
        simp only [List.mem_flatMap] at hxmem
        obtain ⟨p, hp, hxblock⟩ := hxmem
        have hx1 : (x : Nat × Row).1 = p.1 :=
          joinRowBlock_fst _ _ p x hxblock
        unfold joinRowBlock at hxblock
        split at hxblock
        · -- unmatched: the joined Start_Position is null, contradicting
          -- survival of dropna
          exfalso
          rcases List.mem_cons.mp hxblock with rfl | h2
          · have hlnone := getCell_lrow_none
              (renOrig_ne_SP [chr_col, "Start_Position", e] (by simp))
              (r := p.2)
            rw [getCell_append_of_none hlnone] at hxkeep
            have : getCell ([(chr_col, Value.null),
                ("Start_Position", Value.null), (e, Value.null)] : Row)
                "Start_Position" = some Value.null := by
              unfold getCell
              rw [List.find?_cons]
              have hcf : (chr_col == "Start_Position") = false := by
                simpa using hchr_ne
              simp [hcf]
            simp only [List.map_cons, List.map_nil] at hxkeep
            rw [this] at hxkeep
            simp at hxkeep
          · cases h2
        · rw [List.mem_map] at hxblock
          obtain ⟨q0, hq0, rfl⟩ := hxblock
          have hq0mem : q0 ∈ nrows := (List.mem_filter.mp hq0).1
          rw [hnst, List.mem_map] at hq0mem
          obtain ⟨rec, hrec, rfl⟩ := hq0mem
          -- the record's index equals the original row's index
          have hq01 : rec.ind = p.1 := by
            simpa using (List.mem_filter.mp hq0).2
          -- connect the record to its source row via _make_bed
          have hf := make_bed_ok_forall₂ hmb
          obtain ⟨p2, hp2, hind2, -, -, S, hS, hstart⟩ :=
            forall₂_mem_right hf rec hrec
          refine ⟨p2, hp2, ?_, ?_⟩
          · rw [hind2] at hq01
            rw [hqx1, hx1, ← hq01]
          · rw [hqx2, hS]
            have hlnone := getCell_lrow_none
              (renOrig_ne_SP [chr_col, "Start_Position", e] (by simp))
              (r := p.2)
            rw [getCell_append_of_none hlnone]
            have : getCell ([(chr_col, rec.chrom),
                ("Start_Position", Value.int (rec.start + 1)),
                (e, rec.stop)] : Row) "Start_Position" =
                some (Value.int (rec.start + 1)) := by
              unfold getCell
              rw [List.find?_cons]
              have hcf : (chr_col == "Start_Position") = false := by
                simpa using hchr_ne
              simp [hcf]
            rw [this, hstart]
            congr 2
            omega
    · simp at hok

/-- Witness for C2: a concrete row with start 100 yields a bed record
with start 99, and the identity-tool run returns start 100. -/
theorem c2_witness :
    (∃ rec ∈ [({ chrom := Value.str "chr1", start := 99,
                 stop := Value.int 200, ind := 0 } : BedRec)],
      (rec : BedRec).ind =
        ((0, [("Chromosome", Value.str "chr1"),
              ("Start_Position", Value.int 100),
              ("End_Position", Value.int 200)]) : Nat × Row).1 ∧
      rec.start = 100 - 1) ∧
    (∀ q ∈ ({ cols := ["Chromosome_orig", "Start_Position_orig",
                       "End_Position_orig", "Chromosome", "Start_Position",
                       "End_Position"]
            , rows := [(0, [("Chromosome_orig", Value.str "chr1"),
                            ("Start_Position_orig", Value.int 100),
                            ("End_Position_orig", Value.int 200),
                            ("Chromosome", Value.str "chr1"),
                            ("Start_Position", Value.int 100),
                            ("End_Position", Value.int 200)])] } :
              DataFrame).rows,
      ∃ p ∈ df3.rows, (p : Nat × Row).1 = (q : Nat × Row).1 ∧
        getCell q.2 "Start_Position" = getCell p.2 "Start_Position") :=
  ⟨c2_start_round_trip.1 "Chromosome" "Start_Position" "End_Position" df3
      [{ chrom := Value.str "chr1", start := 99,
         stop := Value.int 200, ind := 0 }] (by decide)
      (0, [("Chromosome", Value.str "chr1"),
           ("Start_Position", Value.int 100),
           ("End_Position", Value.int 200)]) (by decide) 100 (by decide),
   c2_start_round_trip.2 idTool df3 "hg19" "grch37" false false
      [Effect.madeBedFile, Effect.ranTool "hg19_to_GRCh37.chain" 0,
       Effect.removedFiles]
      { cols := ["Chromosome_orig", "Start_Position_orig",
                 "End_Position_orig", "Chromosome", "Start_Position",
                 "End_Position"]
      , rows := [(0, [("Chromosome_orig", Value.str "chr1"),
                      ("Start_Position_orig", Value.int 100),
                      ("End_Position_orig", Value.int 200),
                      ("Chromosome", Value.str "chr1"),
                      ("Start_Position", Value.int 100),
                      ("End_Position", Value.int 200)])] }
      { cols := ["Chromosome", "Start_Position", "End_Position"]
      , rows := [] }
      (fun _ _ => rfl) (by decide)⟩

/-! ## Claim C1 helpers -/

theorem end_ne_build_orig {cols : List String} {b e : String}
    (hb : _match_column_str "build" cols = some b)
    (he : _match_column_str "end" cols = some e)
    (hne : b ≠ e) : e ≠ b ++ "_orig" := by
  intro h
  have heinf := match_col_infix he
  rw [h] at heinf
  have heb : "end".data <:+: (lowerStr b).data := end_infix_of_orig heinf
  have hbinf := match_col_infix hb
  have hbe : "build".data <:+: (lowerStr e).data := by
    rw [h]
    exact infix_lower_append_left hbinf
  unfold _match_column_str at hb he
  exact hne (find?_both hb he (strContains_iff.mpr heb)
    (strContains_iff.mpr hbe))

theorem map_fst_transform {rows : List (Nat × Row)} {t : Row → Row} :
    ((rows.map (fun p => (p.1, t p.2))).map Prod.fst) =
      rows.map Prod.fst := by
  rw [List.map_map]
  rfl

/-- C1 counterexample: a one-row table whose end-position cell is
missing is returned in *neither* output: the row joins successfully
(`Start_Position` not null, so it is not in the unlifted subset) but
`dropna` removes it from the result table because its end cell is null
— the two outputs do not partition the input rows. -/
theorem c1_counterexample :
    dfNullEnd.rows.length = 1 ∧
    ((lift_over idTool dfNullEnd "hg19" "grch37" false false).2).toOption.map
      (fun r => ((r.1.rows.length, r.2.rows.length))) = some (0, 0) := by
  constructor
  · decide
  · decide

theorem getCell_nrow_SP {chr_col e : String}
    (hchr_ne : chr_col ≠ "Start_Position") (v1 v2 v3 : Value) :
    getCell [(chr_col, v1), ("Start_Position", v2), (e, v3)]
      "Start_Position" = some v2 := by
  unfold getCell
  rw [List.find?_cons]
  have hcf : (chr_col == "Start_Position") = false := by simpa using hchr_ne
  simp [hcf]

theorem getCell_nrow_end {chr_col e : String}
    (hchr_ne_e : chr_col ≠ e) (hsp_ne_e : "Start_Position" ≠ e)
    (v1 v2 v3 : Value) :
    getCell [(chr_col, v1), ("Start_Position", v2), (e, v3)] e =
      some v3 := by
  unfold getCell
  rw [List.find?_cons]
  have h1 : (chr_col == e) = false := by simpa using hchr_ne_e
  rw [List.find?_cons]
  have h2 : (("Start_Position" : String) == e) = false := by
    simpa using hsp_ne_e
  simp [h1, h2]

/-- The `_orig`-renaming never produces the resolved end-column name,
by the first-match properties of the fuzzy resolution. -/
theorem renOrig_ne_end {cols : List String} {chr_col e : String}
    (hchrM : _match_column_str "chrom" cols = some chr_col)
    (hendM : _match_column_str "end" cols = some e) :
    ∀ x, renOrig [chr_col, "Start_Position", e] x ≠ e := by
  intro x
  unfold renOrig
  by_cases hx : x ∈ ([chr_col, "Start_Position", e] : List String)
  · rw [if_pos hx]
    rcases List.mem_cons.mp hx with rfl | hx2
    · exact fun h => end_ne_chr_orig hchrM hendM h.symm
    · rcases List.mem_cons.mp hx2 with rfl | hx3
      · exact fun h => end_ne_SP_orig hendM h.symm
      · rcases List.mem_cons.mp hx3 with rfl | hx4
        · exact append_orig_ne x
        · cases hx4
  · rw [if_neg hx]
    intro h
    exact hx (h ▸ (by simp))

/-- Per-row characterization of the joined frame under a successful
pipeline: each original row has exactly one joined row, which the
mask's index lookup finds; its `Start_Position` cell is null exactly
when the row was unmatched, and a matched row carries its record's
adjusted start and its end value. -/
theorem joined_row_char {df : DataFrame} {chr_col e : String}
    {nrows : List (Nat × Row)} {finalBed : List BedRec}
    (hchrM : _match_column_str "chrom" df.cols = some chr_col)
    (hendM : _match_column_str "end" df.cols = some e)
    (hchr_ne : chr_col ≠ "Start_Position")
    (hchr_ne_e : chr_col ≠ e) (hsp_ne_e : "Start_Position" ≠ e)
    (hnst : nrows = finalBed.map (fun rec => (rec.ind,
      [(chr_col, rec.chrom),
       ("Start_Position", Value.int (rec.start + 1)), (e, rec.stop)])))
    (hnodup : (df.rows.map Prod.fst).Nodup)
    (hlen : (joinLeftOrig df [chr_col, "Start_Position", e]
      nrows).rows.length = df.rows.length) :
    ∀ p ∈ df.rows, ∃ jr,
      joinRowBlock [chr_col, "Start_Position", e] nrows p = [jr] ∧
      (jr : Nat × Row).1 = p.1 ∧
      (joinLeftOrig df [chr_col, "Start_Position", e] nrows).rows.find?
        (fun z => z.1 == p.1) = some jr ∧
      jr ∈ (joinLeftOrig df [chr_col, "Start_Position", e] nrows).rows ∧
      (getCell jr.2 "Start_Position" = some Value.null ∨
       (∃ rec ∈ finalBed,
         getCell jr.2 "Start_Position" = some (Value.int (rec.start + 1)) ∧
         getCell jr.2 e = some rec.stop)) := by
  intro p hp
  have hone : ∀ x ∈ df.rows,
      (joinRowBlock [chr_col, "Start_Position", e] nrows x).length = 1 :=
    flatMap_blocks_singleton
      (fun x _ => joinRowBlock_length_pos _ nrows x) hlen
  obtain ⟨jr, hjr⟩ := List.length_eq_one.mp (hone p hp)
  have hjmem : jr ∈ joinRowBlock [chr_col, "Start_Position", e] nrows p := by
    rw [hjr]
    exact List.mem_singleton.mpr rfl
  have hj1 : jr.1 = p.1 := joinRowBlock_fst _ _ p jr hjmem
  have hfind := flatMap_find?_single
    (fun x _ => joinRowBlock_fst [chr_col, "Start_Position", e] nrows x)
    hnodup hp hjr
  have hlnone : getCell (p.2.map (fun cell =>
      (renOrig [chr_col, "Start_Position", e] cell.1, cell.2)))
      "Start_Position" = none :=
    getCell_lrow_none
      (renOrig_ne_SP [chr_col, "Start_Position", e] (by simp))
  refine ⟨jr, hjr, hj1, hfind, ?_, ?_⟩
  · unfold joinLeftOrig
    exact List.mem_flatMap.mpr ⟨p, hp, hjmem⟩
  · unfold joinRowBlock at hjr
    split at hjr
    · left
      have hje : jr = (p.1, p.2.map (fun cell =>
          (renOrig [chr_col, "Start_Position", e] cell.1, cell.2)) ++
          ([chr_col, "Start_Position", e].map (fun c =>
            (c, Value.null)))) := (List.cons.inj hjr).1.symm
      rw [hje]
      simp only [List.map_cons, List.map_nil]
      rw [getCell_append_of_none hlnone]
      exact getCell_nrow_SP hchr_ne _ _ _
    · right
      have hfl : (nrows.filter (fun q => q.1 == p.1)).length = 1 := by
        have := congrArg List.length hjr
        simpa using this
      obtain ⟨q0, hq0⟩ := List.length_eq_one.mp hfl
      rw [hq0, List.map_cons, List.map_nil] at hjr
      have hje : jr = (p.1, p.2.map (fun cell =>
          (renOrig [chr_col, "Start_Position", e] cell.1, cell.2)) ++
          q0.2) := (List.cons.inj hjr).1.symm
      have hq0mem : q0 ∈ nrows := by
        have : q0 ∈ nrows.filter (fun q => q.1 == p.1) := by
          rw [hq0]
          exact List.mem_singleton.mpr rfl
        exact (List.mem_filter.mp this).1
      rw [hnst, List.mem_map] at hq0mem
      obtain ⟨rec, hrec, hrec2⟩ := hq0mem
      refine ⟨rec, hrec, ?_, ?_⟩
      · rw [hje, getCell_append_of_none hlnone, ← hrec2]
        exact getCell_nrow_SP hchr_ne _ _ _
      · have hlnone2 : getCell (p.2.map (fun cell =>
            (renOrig [chr_col, "Start_Position", e] cell.1, cell.2))) e =
            none :=
          getCell_lrow_none (renOrig_ne_end hchrM hendM)
        rw [hje, getCell_append_of_none hlnone2, ← hrec2]
        exact getCell_nrow_end hchr_ne_e hsp_ne_e _ _ _

/-- C1 (amended): for any external-tool behavior whose mapped records
carry a non-null end value (as `liftOver` output always does), any
table with unique row indices (the code's stated precondition) whose
resolved build column differs from its resolved end column, and any
build pair for which `lift_over` returns a result: the unlifted subset
consists of original rows, a row is in the unlifted subset exactly
when no result row carries its index, and every result row carries an
original row's index together with integer start and end
coordinates. -/
theorem c1_partition_amended {tool : ExtTool} {df : DataFrame}
    {build_in build_out : String} {keep_orig keep_intermediate : Bool}
    {effs : List Effect} {res unl : DataFrame}
    (htool : ∀ chain recs rec, rec ∈ (tool chain recs).mapped →
      (rec : BedRec).stop ≠ Value.null)
    (hnodup : (df.rows.map Prod.fst).Nodup)
    (hbe : ∀ b e2, _match_column_str "build" df.cols = some b →
      _match_column_str "end" df.cols = some e2 → b ≠ e2)
    (hok : lift_over tool df build_in build_out keep_orig
      keep_intermediate = (effs, Except.ok (res, unl))) :
    (∀ p ∈ df.rows, (p ∈ unl.rows ↔
      (p : Nat × Row).1 ∉ res.rows.map Prod.fst)) ∧
    (∀ p ∈ unl.rows, p ∈ df.rows) ∧
    (∀ q ∈ res.rows, (q : Nat × Row).1 ∈ df.rows.map Prod.fst ∧
      (∃ a : Int, getCell q.2 "Start_Position" = some (Value.int a)) ∧
      (∀ e2, resolvedEnd df.cols = some e2 →
        ∃ c : Int, getCell q.2 e2 = some (Value.int c))) := by
  unfold lift_over at hok
  split at hok
  · split at hok
    · simp at hok
    · rename_i chains hreg
      unfold _lift_with_chains at hok
      obtain ⟨chr_col, s, e, bed0, nrows0, nrows, hchr, hst, hend, hmb,
        hrb, hao, hlen, hrt, hunl⟩ := liftResolved_ok_inv hok
      have hsp := start_col_eq_SP hchr hst hend hao
      subst hsp
      have hnn := (readBedAsFrame_ok hrb).1
      simp only [List.nodup_cons, List.mem_cons, List.mem_singleton,
        List.not_mem_nil, or_false, not_or] at hnn
      have hchr_ne : chr_col ≠ "Start_Position" := hnn.1.1
      have hchr_ne_e : chr_col ≠ e := hnn.1.2.1
      have hsp_ne_e : "Start_Position" ≠ e := hnn.2.1.1
      have hendM : _match_column_str "end" df.cols = some e := by
        rcases resolvedEnd_inv hend with h2 | ⟨-, h2⟩
        · exact h2
        · exact absurd (Option.some.inj (hst.symm.trans h2)) hnn.2.1.1
      have hnst := nrows_structure hchr_ne hrb hao
      have hstopn : ∀ rec ∈ (runHops tool chains bed0).2,
          (rec : BedRec).stop ≠ Value.null := by
        obtain ⟨chain, recs0, hfb⟩ :=
          runHops_last bed0 (chain_lists_ne_nil hreg)
        rw [hfb]
        exact fun rec hr => htool chain recs0 rec hr
      have hchar := joined_row_char hchr hendM hchr_ne hchr_ne_e hsp_ne_e
        hnst hnodup hlen
      -- every joined row with a given original index is that row's
      -- unique joined row
      have huniq : ∀ p ∈ df.rows, ∀ jr,
          joinRowBlock [chr_col, "Start_Position", e] nrows p = [jr] →
          ∀ x ∈ (joinLeftOrig df [chr_col, "Start_Position", e]
            nrows).rows, (x : Nat × Row).1 = p.1 → x = jr := by
        intro p hp jr hjr x hx hx1
        unfold joinLeftOrig at hx
        rw [List.mem_flatMap] at hx
        obtain ⟨p2, hp2, hxb⟩ := hx
        have hx2 : x.1 = p2.1 :=
          joinRowBlock_fst [chr_col, "Start_Position", e] nrows p2 x hxb
        have hp2p : p2 = p :=
          nodup_keys_inj hnodup hp2 hp (by rw [← hx2, hx1])
        rw [hp2p, hjr] at hxb
        exact List.mem_singleton.mp hxb
      -- membership in the unlifted subset, given the mask lookup
      have hunlmem : ∀ p2 jr2,
          (joinLeftOrig df [chr_col, "Start_Position", e]
            nrows).rows.find? (fun z => z.1 == (p2 : Nat × Row).1) =
            some jr2 →
          (p2 ∈ unliftedOf df (joinLeftOrig df
            [chr_col, "Start_Position", e] nrows).rows ↔
           p2 ∈ df.rows ∧
           (((getCell jr2.2 "Start_Position").getD Value.null ==
             Value.null) = true)) := by
        intro p2 jr2 hfind
        unfold unliftedOf
        rw [List.mem_filter]
        simp only [hfind]
      -- the shape of the result rows relative to the dropna survivors
      have hkey :
          res.rows.map Prod.fst =
            ((joinLeftOrig df [chr_col, "Start_Position", e]
              nrows).rows.filter (fun q2 =>
                ((getCell q2.2 "Start_Position").getD Value.null
                  != Value.null)
                && ((getCell q2.2 e).getD Value.null !=
                  Value.null))).map Prod.fst ∧
          (∀ q ∈ res.rows,
            ∃ x ∈ (joinLeftOrig df [chr_col, "Start_Position", e]
              nrows).rows.filter (fun q2 =>
                ((getCell q2.2 "Start_Position").getD Value.null
                  != Value.null)
                && ((getCell q2.2 e).getD Value.null != Value.null)),
              (q : Nat × Row).1 = (x : Nat × Row).1 ∧
              getCell q.2 "Start_Position" =
                getCell x.2 "Start_Position" ∧
              getCell q.2 e = getCell x.2 e) ∧
          (∀ x ∈ (joinLeftOrig df [chr_col, "Start_Position", e]
              nrows).rows.filter (fun q2 =>
                ((getCell q2.2 "Start_Position").getD Value.null
                  != Value.null)
                && ((getCell q2.2 e).getD Value.null != Value.null)),
            ∀ v, getCell (x : Nat × Row).2 e = some v →
              ∃ k, v = Value.int k) := by
        cases hbm : _match_column_str "build" df.cols with
        | none =>
          rw [hbm] at hrt
          obtain ⟨dfA, dfB, hd, ha, hb2⟩ := reconcileTail_ok_nobuild hrt
          have hAe := dropnaStartEnd_ok hd
          subst hAe
          obtain ⟨hBe, hintS⟩ := astypeIntCol_id ha
          subst hBe
          obtain ⟨hCe, hintE⟩ := astypeIntCol_id hb2
          subst hCe
          exact ⟨rfl, fun q hq => ⟨q, hq, rfl, rfl, rfl⟩,
            fun x hx => hintE x hx⟩
        | some b =>
          rw [hbm] at hrt
          obtain ⟨dfA, dfB, dfC, hd, ha, hb2, hbranch⟩ :=
            reconcileTail_ok_build hrt
          have hAe := dropnaStartEnd_ok hd
          subst hAe
          obtain ⟨hBe, hintS⟩ := astypeIntCol_id ha
          subst hBe
          obtain ⟨hCe, hintE⟩ := astypeIntCol_id hb2
          subst hCe
          have hb_ne_sp : "Start_Position" ≠ b :=
            fun h2 => build_ne_SP hbm h2.symm
          have hb_ne_sporig : "Start_Position" ≠ b ++ "_orig" :=
            fun h2 => start_position_not_orig b h2.symm
          have hbe2 : b ≠ e := hbe b e hbm hendM
          have he_ne_b : e ≠ b := fun h2 => hbe2 h2.symm
          have he_ne_borig : e ≠ b ++ "_orig" :=
            end_ne_build_orig hbm hendM hbe2
          rcases hbranch with ⟨-, hres⟩ | ⟨-, hres⟩
          · subst hres
            refine ⟨?_, ?_, fun x hx => hintE x hx⟩
            · show ((_ : DataFrame).rows.map _).map Prod.fst = _
              rw [map_fst_transform]
              unfold renameCol
              rw [map_fst_transform]
            · intro q hq
              unfold setCol at hq
              simp only [List.mem_map] at hq
              obtain ⟨x0, hx0, rfl⟩ := hq
              unfold renameCol at hx0
              simp only [List.mem_map] at hx0
              obtain ⟨x, hx, rfl⟩ := hx0
              refine ⟨x, hx, rfl, ?_, ?_⟩
              · rw [getCell_setCellRow_other _ hb_ne_sp,
                  getCell_renameCellRow_other hb_ne_sp hb_ne_sporig]
              · rw [getCell_setCellRow_other _ he_ne_b,
                  getCell_renameCellRow_other he_ne_b he_ne_borig]
          · have hdres := dropCols_ok hres
            subst hdres
            have hspn : "Start_Position" ∉
                ([chr_col ++ "_orig", "Start_Position" ++ "_orig",
                  e ++ "_orig"] : List String) := by
              simp only [List.mem_cons, List.mem_singleton,
                List.not_mem_nil, or_false, not_or]
              exact ⟨fun h2 => start_position_not_orig chr_col h2.symm,
                fun h2 => start_position_not_orig "Start_Position" h2.symm,
                fun h2 => start_position_not_orig e h2.symm⟩
            have hen : e ∉
                ([chr_col ++ "_orig", "Start_Position" ++ "_orig",
                  e ++ "_orig"] : List String) := by
              simp only [List.mem_cons, List.mem_singleton,
                List.not_mem_nil, or_false, not_or]
              exact ⟨end_ne_chr_orig hchr hendM, end_ne_SP_orig hendM,
                fun h2 => append_orig_ne e h2.symm⟩
            refine ⟨?_, ?_, fun x hx => hintE x hx⟩
            · show ((_ : DataFrame).rows.map _).map Prod.fst = _
              rw [map_fst_transform]
              unfold setCol
              rw [map_fst_transform]
            · intro q hq
              simp only [List.mem_map] at hq
              obtain ⟨x0, hx0, rfl⟩ := hq
              unfold setCol at hx0
              simp only [List.mem_map] at hx0
              obtain ⟨x, hx, rfl⟩ := hx0
              refine ⟨x, hx, rfl, ?_, ?_⟩
              · rw [getCell_filter_not_mem hspn,
                  getCell_setCellRow_other _ hb_ne_sp]
              · rw [getCell_filter_not_mem hen,
                  getCell_setCellRow_other _ he_ne_b]
      obtain ⟨hfst, hqx, hintE⟩ := hkey
      subst hunl
      refine ⟨?_, ?_, ?_⟩
      · intro p hp
        obtain ⟨jr, hjr, hj1, hfind, hjmem, hdisj⟩ := hchar p hp
        rw [hunlmem p jr hfind]
        constructor
        · intro hpunl hpres
          rw [hfst, List.mem_map] at hpres
          obtain ⟨x, hxf, hx1⟩ := hpres
          have hxjr : x = jr :=
            huniq p hp jr hjr x (List.mem_filter.mp hxf).1 hx1
          subst hxjr
          have hkeep := (List.mem_filter.mp hxf).2
          rcases hdisj with hnull | ⟨rec, -, hSPv, -⟩
          · rw [hnull] at hkeep
            simp at hkeep
          · rw [hSPv] at hpunl
            simp at hpunl
        · intro hnres
          refine ⟨hp, ?_⟩
          rcases hdisj with hnull | ⟨rec, hrec, hSPv, hev⟩
          · rw [hnull]
            simp
          · exfalso
            apply hnres
            rw [hfst, List.mem_map]
            refine ⟨jr, ?_, hj1⟩
            rw [List.mem_filter]
            refine ⟨hjmem, ?_⟩
            rw [hSPv, hev]
            have hsn := hstopn rec hrec
            simp only [Option.getD_some, Bool.and_eq_true, bne_iff_ne,
              ne_eq]
            exact ⟨by simp, hsn⟩
      · intro p hpunl
        unfold unliftedOf at hpunl
        exact (List.mem_filter.mp hpunl).1
      · intro q hq
        obtain ⟨x, hxf, hq1, hqSP, hqe⟩ := hqx q hq
        have hxmem := (List.mem_filter.mp hxf).1
        unfold joinLeftOrig at hxmem
        rw [List.mem_flatMap] at hxmem
        obtain ⟨p2, hp2, hxb⟩ := hxmem
        obtain ⟨jr2, hjr2, hj12, hfind2, hjmem2, hdisj2⟩ := hchar p2 hp2
        have hxeq : x = jr2 := by
          rw [hjr2] at hxb
          exact List.mem_singleton.mp hxb
        subst hxeq
        have hkeep := (List.mem_filter.mp hxf).2
        rcases hdisj2 with hnull | ⟨rec, hrec, hSPv, hev⟩
        · exfalso
          rw [hnull] at hkeep
          simp at hkeep
        · refine ⟨?_, ?_, ?_⟩
          · rw [List.mem_map]
            exact ⟨p2, hp2, by rw [← hj12, ← hq1]⟩
          · exact ⟨rec.start + 1, by rw [hqSP, hSPv]⟩
          · intro e2 he2
            have he2e : e2 = e := Option.some.inj (he2.symm.trans hend)
            subst he2e
            obtain ⟨k, hk⟩ := hintE x hxf rec.stop hev
            exact ⟨k, by rw [hqe, hev, hk]⟩
  · simp at hok

/-- Witness for C1 (amended) at a concrete run: a stub tool mapping
the single interval of `df3` to itself (with a concrete non-null end),
on the single-hop pair `hg19 → grch37`. -/
theorem c1_witness :
    (∀ p ∈ df3.rows, (p ∈ ({ cols := ["Chromosome", "Start_Position",
                                      "End_Position"]
                           , rows := [] } : DataFrame).rows ↔
      (p : Nat × Row).1 ∉
        ({ cols := ["Chromosome_orig", "Start_Position_orig",
                    "End_Position_orig", "Chromosome", "Start_Position",
                    "End_Position"]
         , rows := [(0, [("Chromosome_orig", Value.str "chr1"),
                         ("Start_Position_orig", Value.int 100),
                         ("End_Position_orig", Value.int 200),
                         ("Chromosome", Value.str "chr1"),
                         ("Start_Position", Value.int 100),
                         ("End_Position", Value.int 200)])] } :
          DataFrame).rows.map Prod.fst)) ∧
    (∀ p ∈ ({ cols := ["Chromosome", "Start_Position", "End_Position"]
            , rows := [] } : DataFrame).rows, p ∈ df3.rows) ∧
    (∀ q ∈ ({ cols := ["Chromosome_orig", "Start_Position_orig",
                       "End_Position_orig", "Chromosome", "Start_Position",
                       "End_Position"]
            , rows := [(0, [("Chromosome_orig", Value.str "chr1"),
                            ("Start_Position_orig", Value.int 100),
                            ("End_Position_orig", Value.int 200),
                            ("Chromosome", Value.str "chr1"),
                            ("Start_Position", Value.int 100),
                            ("End_Position", Value.int 200)])] } :
             DataFrame).rows,
      (q : Nat × Row).1 ∈ df3.rows.map Prod.fst ∧
      (∃ a : Int, getCell q.2 "Start_Position" = some (Value.int a)) ∧
      (∀ e2, resolvedEnd df3.cols = some e2 →
        ∃ c : Int, getCell q.2 e2 = some (Value.int c))) :=
  @c1_partition_amended
    (fun _ _ => { exitCode := 0
                , mapped := [{ chrom := Value.str "chr1", start := 99,
                               stop := Value.int 200, ind := 0 }] })
    df3 "hg19" "grch37" false false
    [Effect.madeBedFile, Effect.ranTool "hg19_to_GRCh37.chain" 0,
     Effect.removedFiles]
    { cols := ["Chromosome_orig", "Start_Position_orig",
               "End_Position_orig", "Chromosome", "Start_Position",
               "End_Position"]
    , rows := [(0, [("Chromosome_orig", Value.str "chr1"),
                    ("Start_Position_orig", Value.int 100),
                    ("End_Position_orig", Value.int 200),
                    ("Chromosome", Value.str "chr1"),
                    ("Start_Position", Value.int 100),
                    ("End_Position", Value.int 200)])] }
    { cols := ["Chromosome", "Start_Position", "End_Position"]
    , rows := [] }
    (fun _ _ rec hr => by
      rcases List.mem_singleton.mp hr with rfl
      decide)
    (by decide)
    (fun b e2 hb he2 => by
      have hnone : _match_column_str "build" df3.cols = none := by decide
      rw [hnone] at hb
      cases hb)
    (by decide)
